import Mathlib

/-!
Shallow embedding of the RESP codec and command handlers of the
Redis-compatible server implemented by the Rust sources under `src/`.

Modelling conventions:
* bytes are `Nat` (values 0..255); a Rust `String` is represented by its
  UTF-8 byte list; `u64`/`usize` are `Nat`; `i64` is `Int` with explicit
  bound checks where the code checks them;
* fallible Rust functions return a `PRes` value; a Rust panic (slice index
  out of bounds, `Option::unwrap` on `None`, ...) is the explicit outcome
  `PRes.crash`;
* recursive parsers take a fuel argument so that every definition is a
  total, executable `def`; the canonical entry points supply enough fuel
  (the recursion consumes several input bytes per nesting level).
-/

namespace S2P

/-- Bytes of the CRLF terminator sequence, `reader.rs` constant `CRLF`. -/
def CRLF : List Nat := [13, 10]

/-- Decimal digit test on a byte (ASCII 48..57). -/
def isDigitB (b : Nat) : Bool := 48 ≤ b && b ≤ 57

/-- Big-endian decimal digit bytes to the number they denote. -/
def bytesToNat (l : List Nat) : Nat :=
  l.foldl (fun a d => a * 10 + (d - 48)) 0

/-- Fuel-driven core of `natToBytes` (structural recursion so that the
kernel can evaluate it on closed inputs). -/
def natToBytesAux : Nat → Nat → List Nat
  | 0, _ => []
  | fuel + 1, n => if n < 10 then [n + 48] else natToBytesAux fuel (n / 10) ++ [n % 10 + 48]

/-- Decimal rendering of a `Nat` as ASCII bytes; models Rust integer
`to_string` for non-negative values (no sign, no leading zeros). -/
def natToBytes (n : Nat) : List Nat := natToBytesAux (n + 1) n

/-- Decimal rendering of an `Int` as ASCII bytes; models Rust `i64::to_string`. -/
def intToBytes (i : Int) : List Nat :=
  (if i < 0 then [45] else []) ++ natToBytes i.natAbs

/-- Unsigned decimal digit-string evaluation used by both Rust integer
parsers: requires a non-empty all-digit string. -/
def parseDigits (l : List Nat) : Option Nat :=
  if l ≠ [] ∧ l.all isDigitB then some (bytesToNat l) else none

/-- Models Rust `str::parse::<u64>`: optional leading `+`, decimal digits,
overflow above `2^64 - 1` rejected (a leading `-` fails the digit test). -/
def rustParseU64 (s : List Nat) : Option Nat :=
  let ds := if s.head? = some 43 then s.tail else s
  match parseDigits ds with
  | some v => if v < 2 ^ 64 then some v else none
  | none => none

/-- Models Rust `str::parse::<i64>`: optional sign, decimal digits, i64
range check. -/
def rustParseI64 (s : List Nat) : Option Int :=
  let neg := s.head? = some 45
  let ds := if s.head? = some 43 ∨ s.head? = some 45 then s.tail else s
  match parseDigits ds with
  | some v =>
    if neg then (if v ≤ 2 ^ 63 then some (-(v : Int)) else none)
    else (if v < 2 ^ 63 then some (v : Int) else none)
  | none => none

/-- First-byte test for a list: `l` begins with the bytes of `pat`.
Models Rust `starts_with`. -/
def listStartsWith (pat l : List Nat) : Bool :=
  decide (l.take pat.length = pat)

/-- Position of the first occurrence of the byte pattern `pat` in `l`
(Rust `slice::windows(..).position(..)` as used by `BytesReader::find`). -/
def findWindow (pat : List Nat) : List Nat → Option Nat
  | [] => none
  | x :: rest =>
    if listStartsWith pat (x :: rest) then some 0
    else (findWindow pat rest).map (· + 1)

/-- Position of the first CRLF window; models `BytesReader::find_crlf`
search. -/
def findCRLF (l : List Nat) : Option Nat := findWindow CRLF l

/-- A byte list containing no CRLF window. -/
def crlfFree (l : List Nat) : Bool := (findCRLF l).isNone

/-- Continuation-byte range test for UTF-8. -/
def utf8Between (lo hi b : Nat) : Bool := lo ≤ b && b ≤ hi

mutual

/-- UTF-8 validity of a byte list; models the check done by Rust
`std::str::from_utf8` (tight continuation ranges per leading byte: no
overlong forms, no surrogates, max U+10FFFF). -/
def isValidUtf8 : List Nat → Bool
  | [] => true
  | b :: rest =>
    if b < 128 then isValidUtf8 rest
    else if 194 ≤ b ∧ b ≤ 223 then utf8Need1 128 191 rest
    else if b = 224 then utf8Need2 160 191 rest
    else if 225 ≤ b ∧ b ≤ 236 then utf8Need2 128 191 rest
    else if b = 237 then utf8Need2 128 159 rest
    else if 238 ≤ b ∧ b ≤ 239 then utf8Need2 128 191 rest
    else if b = 240 then utf8Need3 144 191 rest
    else if 241 ≤ b ∧ b ≤ 243 then utf8Need3 128 191 rest
    else if b = 244 then utf8Need3 128 143 rest
    else false

/-- One continuation byte in `[lo, hi]`, then a valid tail. -/
def utf8Need1 (lo hi : Nat) : List Nat → Bool
  | c1 :: rest => utf8Between lo hi c1 && isValidUtf8 rest
  | [] => false

/-- A continuation byte in `[lo, hi]`, then one more in `[128, 191]`. -/
def utf8Need2 (lo hi : Nat) : List Nat → Bool
  | c1 :: rest => utf8Between lo hi c1 && utf8Need1 128 191 rest
  | [] => false

/-- A continuation byte in `[lo, hi]`, then two more in `[128, 191]`. -/
def utf8Need3 (lo hi : Nat) : List Nat → Bool
  | c1 :: rest => utf8Between lo hi c1 && utf8Need2 128 191 rest
  | [] => false

end

/-- ASCII uppercasing of a byte list; models Rust `str::to_uppercase` on
the ASCII subset (the only place the code compares uppercased strings is
against ASCII literals, for which the two agree byte for byte). -/
def asciiUpper (l : List Nat) : List Nat :=
  l.map fun b => if 97 ≤ b ∧ b ≤ 122 then b - 32 else b

/-- Byte list of a string literal via character code points; agrees with
the UTF-8 bytes for the ASCII literals used throughout (kept
kernel-computable on purpose). -/
def strBytes (s : String) : List Nat := s.data.map Char.toNat

/-- The RESP value type, embedding `enum Type` of
`src/parser/resp/types.rs`.  Payload strings are UTF-8 byte lists.
`Double(f64)` is represented by the decimal rendering that
`f64::to_string` would produce, since the codec only ever formats it
(floating point itself is outside the shallow embedding); `Map` and `Set`
are association/element lists standing for `HashMap`/`HashSet` contents
in one iteration order. -/
inductive RType where
  | simpleString (s : List Nat)
  | simpleError (s : List Nat)
  | integer (i : Int)
  | bulkString (s : List Nat)
  | array (xs : List RType)
  | null
  | boolean (b : Bool)
  | double (repr : List Nat)
  | bigNumber (i : Int)
  | bulkError (s : List Nat)
  | verbatimString (enc data : List Nat)
  | map (pairs : List (RType × RType))
  | rset (xs : List RType)
  | rdbFile (data : List Nat)
deriving Repr

mutual

/-- Embeds `Type::as_bytes` of `src/parser/resp/types.rs` (the RESP
encoder).  Note the source's quirks are preserved: `Boolean` encodes the
`to_string` of the Rust bool (`true`/`false`), and `BulkError` emits only
the `!<len>\r\n` header with no payload. -/
def RType.asBytes : RType → List Nat
  | .simpleString s => 43 :: (s ++ CRLF)
  | .simpleError s => 45 :: (s ++ CRLF)
  | .integer i => 58 :: (intToBytes i ++ CRLF)
  | .bulkString s => (36 :: (natToBytes s.length ++ CRLF)) ++ s ++ CRLF
  | .array xs => (42 :: (natToBytes xs.length ++ CRLF)) ++ RType.asBytesList xs
  | .null => [95, 13, 10]
  | .boolean b => 35 :: ((if b then strBytes "true" else strBytes "false") ++ CRLF)
  | .double r => 44 :: (r ++ CRLF)
  | .bigNumber i => 40 :: (intToBytes i ++ CRLF)
  | .bulkError s => 33 :: (natToBytes s.length ++ CRLF)
  | .verbatimString enc data =>
    (61 :: (natToBytes data.length ++ CRLF)) ++ enc ++ [58] ++ data ++ CRLF
  | .map ps => (37 :: (natToBytes ps.length ++ CRLF)) ++ RType.asBytesPairs ps
  | .rset xs => (126 :: (natToBytes xs.length ++ CRLF)) ++ RType.asBytesList xs
  | .rdbFile d => (36 :: (natToBytes d.length ++ CRLF)) ++ d

/-- Concatenated encodings of a list of values (the `for item in data`
loops of `as_bytes`). -/
def RType.asBytesList : List RType → List Nat
  | [] => []
  | x :: xs => x.asBytes ++ RType.asBytesList xs

/-- Concatenated encodings of key/value pairs (the map loop of
`as_bytes`). -/
def RType.asBytesPairs : List (RType × RType) → List Nat
  | [] => []
  | (k, v) :: ps => k.asBytes ++ v.asBytes ++ RType.asBytesPairs ps

end

mutual

/-- Structural equality test on RESP values, modelling the derived
`PartialEq` of `enum Type` (for `Map`/`Set` contents in list order). -/
def RType.beq : RType → RType → Bool
  | .simpleString a, .simpleString b => a == b
  | .simpleError a, .simpleError b => a == b
  | .integer a, .integer b => a == b
  | .bulkString a, .bulkString b => a == b
  | .array a, .array b => RType.beqList a b
  | .null, .null => true
  | .boolean a, .boolean b => a == b
  | .double a, .double b => a == b
  | .bigNumber a, .bigNumber b => a == b
  | .bulkError a, .bulkError b => a == b
  | .verbatimString a c, .verbatimString b d => a == b && c == d
  | .map a, .map b => RType.beqPairs a b
  | .rset a, .rset b => RType.beqList a b
  | .rdbFile a, .rdbFile b => a == b
  | _, _ => false

/-- Elementwise equality of value lists. -/
def RType.beqList : List RType → List RType → Bool
  | [], [] => true
  | x :: xs, y :: ys => RType.beq x y && RType.beqList xs ys
  | _, _ => false

/-- Elementwise equality of pair lists. -/
def RType.beqPairs : List (RType × RType) → List (RType × RType) → Bool
  | [], [] => true
  | (k1, v1) :: xs, (k2, v2) :: ys => RType.beq k1 k2 && RType.beq v1 v2 && RType.beqPairs xs ys
  | _, _ => false

end

/-- Debug rendering of a byte vector, Rust `format!("{:?}", vec)`;
needed by the `Display` impl for `RDBFile`. -/
def vecDebug (l : List Nat) : List Nat :=
  let rec inner : List Nat → List Nat
    | [] => []
    | [x] => natToBytes x
    | x :: xs => natToBytes x ++ [44, 32] ++ inner xs
  91 :: inner l ++ [93]

mutual

/-- Embeds `impl Display for Type` of `src/parser/resp/types.rs`
(`to_string` goes through this).  Unlike `as_bytes`, `Display` conflates
an empty `BulkString` with Null (`$-1\r\n`).  Map/Set iteration is in
list order (one possible `HashMap`/`HashSet` order). -/
def RType.display : RType → List Nat
  | .simpleString s => 43 :: (s ++ CRLF)
  | .simpleError s => 45 :: (s ++ CRLF)
  | .integer i => 58 :: (intToBytes i ++ CRLF)
  | .bulkString s =>
    if s = [] then strBytes "$-1" ++ CRLF
    else (36 :: (natToBytes s.length ++ CRLF)) ++ s ++ CRLF
  | .array xs => (42 :: (natToBytes xs.length ++ CRLF)) ++ RType.displayList xs
  | .null => strBytes "$-1" ++ CRLF
  | .boolean b => 35 :: ((if b then [116] else [102]) ++ CRLF)
  | .double r => 44 :: (r ++ CRLF)
  | .bigNumber i => 40 :: (intToBytes i ++ CRLF)
  | .bulkError s => 33 :: (s ++ CRLF)
  | .verbatimString enc data =>
    (61 :: (natToBytes data.length ++ CRLF)) ++ data ++ [58] ++ enc ++ CRLF
  | .map ps => (37 :: (natToBytes ps.length ++ CRLF)) ++ RType.displayPairs ps
  | .rset xs => (126 :: (natToBytes xs.length ++ CRLF)) ++ RType.displayList xs
  | .rdbFile d => (36 :: (40 :: natToBytes d.length ++ CRLF)) ++ vecDebug d

/-- Display of list elements in order. -/
def RType.displayList : List RType → List Nat
  | [] => []
  | x :: xs => x.display ++ RType.displayList xs

/-- Display of map pairs in order. -/
def RType.displayPairs : List (RType × RType) → List Nat
  | [] => []
  | (k, v) :: ps => k.display ++ v.display ++ RType.displayPairs ps

end

/-- Encoded byte length of a value. -/
def RType.encLen (v : RType) : Nat := v.asBytes.length

/-- Error values produced by the parsers, one constructor per error the
source can box (`parser/errors.rs`, the per-parser error enums, UTF-8 and
integer-parse errors, and the top-level format-string error of
`parser/mod.rs`). -/
inductive PErr where
  | emptyInput
  | invalidFirstByte (got expected : Nat)
  | nonTerminating (len : Nat)
  | intParse
  | utf8
  | bulkInsufficientData (len : Nat)
  | bulkInvalidLength (expected actual : Nat)
  | arrayInsufficientData (len : Nat)
  | boolInsufficientData (len : Nat)
  | boolInvalidChar (b : Nat)
  | boolInvalidTerminator
  | nullInvalidSecondByte (b : Nat)
  | verbatimInvalidLength (expected actual : Nat)
  | doubleParse
  | topInvalidFirstByte
deriving Repr, DecidableEq

/-- Outcome of running a fallible piece of Rust: a value, a boxed error,
or a panic (`crash`). -/
inductive PRes (α : Type) where
  | ok (a : α)
  | err (e : PErr)
  | crash
deriving Repr

/-- Sequencing that propagates errors and panics, the `?` operator. -/
def PRes.bind {α β : Type} : PRes α → (α → PRes β) → PRes β
  | .ok a, f => f a
  | .err e, _ => .err e
  | .crash, _ => .crash

/-- Mapping over a successful outcome. -/
def PRes.map {α β : Type} (f : α → β) : PRes α → PRes β
  | .ok a => .ok (f a)
  | .err e => .err e
  | .crash => .crash

/-- Embeds `BytesReader` of `src/parser/reader.rs`: a byte slice with the
mutable `start_pos`/`end_pos` window used by `slice`/`as_bytes`. -/
structure BytesReader where
  slice : List Nat
  start_pos : Nat
  end_pos : Nat
deriving Repr

/-- Embeds `reader::read`. -/
def rread (input : List Nat) : BytesReader :=
  { slice := input, start_pos := 0, end_pos := input.length }

namespace BytesReader

/-- Embeds `BytesReader::first` (EmptyInput error on an empty slice). -/
def first (r : BytesReader) : PRes Nat :=
  match r.slice.head? with
  | some b => .ok b
  | none => .err .emptyInput

/-- Embeds `BytesReader::find_crlf`: position of the first CRLF window of
the whole underlying slice (the Rust code scans `self.slice`, ignoring
`start_pos`/`end_pos`), returning `(start, end)` of the window. -/
def find_crlf (r : BytesReader) : PRes (Nat × Nat) :=
  match findCRLF r.slice with
  | some p => .ok (p, p + 2)
  | none => .err (.nonTerminating r.slice.length)

/-- Embeds `BytesReader::slice`: swaps a reversed range, clamps `end_` to
the slice length, and — the source quirk — sets `start_pos` to the *old*
`end_pos` field when `start` is out of range. -/
def rslice (r : BytesReader) (start end_ : Nat) : BytesReader :=
  let s := if start > end_ then end_ else start
  let e := if start > end_ then start else end_
  { r with
    start_pos := if s ≥ r.slice.length then r.end_pos else s
    end_pos := if e > r.slice.length then r.slice.length else e }

/-- Embeds `BytesReader::as_bytes`: extract `slice[start_pos..end_pos]`
and reset both positions to 0.  A reversed or out-of-range window is a
Rust slice-index panic. -/
def as_bytes (r : BytesReader) : PRes (List Nat × BytesReader) :=
  if r.start_pos ≤ r.end_pos ∧ r.end_pos ≤ r.slice.length then
    .ok ((r.slice.drop r.start_pos).take (r.end_pos - r.start_pos),
      { r with start_pos := 0, end_pos := 0 })
  else .crash

/-- Embeds `BytesReader::as_str` / `as_string`: `as_bytes` plus UTF-8
validation (the byte list itself is the string representation). -/
def as_string (r : BytesReader) : PRes (List Nat × BytesReader) :=
  r.as_bytes.bind fun (bs, r1) =>
    if isValidUtf8 bs then .ok (bs, r1) else .err .utf8

/-- Embeds `BytesReader::parse::<i64>`: `as_str` then `str::parse`. -/
def parse_i64 (r : BytesReader) : PRes (Int × BytesReader) :=
  r.as_string.bind fun (bs, r1) =>
    match rustParseI64 bs with
    | some v => .ok (v, r1)
    | none => .err .intParse

/-- Embeds `BytesReader::split`: find the pattern inside the
`[start_pos..end_pos]` window (`find`), panicking on `unwrap` when it is
absent, then split the `[start_pos..]` suffix around it into two fresh
readers. -/
def split (r : BytesReader) (pat : List Nat) : PRes (BytesReader × BytesReader) :=
  let window := (r.slice.drop r.start_pos).take (r.end_pos - r.start_pos)
  match findWindow pat window with
  | none => .crash
  | some pos =>
    let suffix := r.slice.drop r.start_pos
    .ok (rread (suffix.take pos), rread ((suffix.drop pos).drop pat.length))

end BytesReader

/-- All-digit non-empty test used by the double literal model. -/
def digits1 (l : List Nat) : Bool := l ≠ [] && l.all isDigitB

/-- Split a list at the first occurrence of byte `b`. -/
def splitAtByte (b : Nat) (l : List Nat) : Option (List Nat × List Nat) :=
  (findWindow [b] l).map fun p => (l.take p, (l.drop p).drop 1)

/-- Drop one optional leading sign byte. -/
def stripSign : List Nat → List Nat
  | 43 :: r => r
  | 45 :: r => r
  | r => r

/-- Decimal mantissa: digits with an optional fraction part. -/
def isMantissa (l : List Nat) : Bool :=
  match splitAtByte 46 l with
  | some (a, b) => digits1 a && (b = [] || digits1 b)
  | none => digits1 l

/-- Modelled from the spec: the double literals `str::parse::<f64>`
accepts per §4.1 — optional sign, integer part, optional fraction,
optional exponent, or the sentinels `inf`/`-inf`/`nan`. -/
def isDoubleLit (s : List Nat) : Bool :=
  s = strBytes "inf" || s = strBytes "-inf" || s = strBytes "nan" ||
  (let s1 := stripSign s
   match splitAtByte 101 s1 with
   | some (m, e) => isMantissa m && digits1 (stripSign e)
   | none => isMantissa s1)

/-- Modelled from the spec: `src/parser/resp/simple_string.rs` is
declared in `resp/mod.rs` but absent from `src/`; per §4.1 a
SimpleString is `+` text `\r\n` (reader-based like its siblings). -/
def simpleStringParse (input : List Nat) : PRes (RType × List Nat) :=
  let bytes := rread input
  bytes.first.bind fun first_byte =>
  if first_byte ≠ 43 then .err (.invalidFirstByte first_byte 43) else
  bytes.find_crlf.bind fun (end_pos, rest_pos) =>
  ((bytes.rslice 1 end_pos).as_string).bind fun (s, _) =>
  .ok (.simpleString s, input.drop rest_pos)

/-- Embeds `simple_error::parse` of `src/parser/resp/simple_error.rs`. -/
def simpleErrorParse (input : List Nat) : PRes (RType × List Nat) :=
  let bytes := rread input
  bytes.first.bind fun first_byte =>
  if first_byte ≠ 45 then .err (.invalidFirstByte first_byte 45) else
  bytes.find_crlf.bind fun (end_pos, rest_pos) =>
  ((bytes.rslice 1 end_pos).as_string).bind fun (s, _) =>
  .ok (.simpleError s, input.drop rest_pos)

/-- Modelled from the spec: `src/parser/resp/integer.rs` is absent from
`src/`; per §4.1 an Integer is `:` signed decimal `\r\n`. -/
def integerParse (input : List Nat) : PRes (RType × List Nat) :=
  let bytes := rread input
  bytes.first.bind fun first_byte =>
  if first_byte ≠ 58 then .err (.invalidFirstByte first_byte 58) else
  bytes.find_crlf.bind fun (end_pos, rest_pos) =>
  ((bytes.rslice 1 end_pos).parse_i64).bind fun (v, _) =>
  .ok (.integer v, input.drop rest_pos)

/-- Modelled from the spec: `src/parser/resp/null.rs` is absent from
`src/`; per §4.1 Null is `_\r\n` (the CRLF must directly follow the
tag). -/
def nullParse (input : List Nat) : PRes (RType × List Nat) :=
  let bytes := rread input
  bytes.first.bind fun first_byte =>
  if first_byte ≠ 95 then .err (.invalidFirstByte first_byte 95) else
  bytes.find_crlf.bind fun (start_pos, rest_pos) =>
  if start_pos ≠ 1 then
    (match input.get? 1 with
     | some b => .err (.nullInvalidSecondByte b)
     | none => .crash)
  else .ok (.null, input.drop rest_pos)

/-- Modelled from the spec: `src/parser/resp/big_number.rs` is absent
from `src/`; per §4.1 a BigNumber is `(` decimal `\r\n` (i64 in this
implementation). -/
def bigNumberParse (input : List Nat) : PRes (RType × List Nat) :=
  let bytes := rread input
  bytes.first.bind fun first_byte =>
  if first_byte ≠ 40 then .err (.invalidFirstByte first_byte 40) else
  bytes.find_crlf.bind fun (end_pos, rest_pos) =>
  ((bytes.rslice 1 end_pos).parse_i64).bind fun (v, _) =>
  .ok (.bigNumber v, input.drop rest_pos)

/-- Modelled from the spec: `src/parser/resp/double.rs` is absent from
`src/`; per §4.1 a Double is `,` decimal-or-sentinel `\r\n`.  The parsed
value keeps its textual rendering (see `RType.double`). -/
def doubleParse (input : List Nat) : PRes (RType × List Nat) :=
  let bytes := rread input
  bytes.first.bind fun first_byte =>
  if first_byte ≠ 44 then .err (.invalidFirstByte first_byte 44) else
  bytes.find_crlf.bind fun (end_pos, rest_pos) =>
  ((bytes.rslice 1 end_pos).as_string).bind fun (s, _) =>
  if isDoubleLit s then .ok (.double s, input.drop rest_pos)
  else .err .doubleParse

/-- Embeds `boolean::parse` of `src/parser/resp/boolean.rs`. -/
def booleanParse (input : List Nat) : PRes (RType × List Nat) :=
  if input.length < 4 then .err (.boolInsufficientData input.length) else
  let bytes := rread input
  bytes.first.bind fun first_byte =>
  if first_byte ≠ 35 then .err (.invalidFirstByte first_byte 35) else
  bytes.find_crlf.bind fun (crlf_pos, crlf_end_pos) =>
  (show PRes Bool from
    match input.get? 1 with
    | none => .crash
    | some b =>
      if b = 116 then .ok true
      else if b = 102 then .ok false
      else .err (.boolInvalidChar b)).bind fun boolean =>
  let seg := (input.drop crlf_pos).take (crlf_end_pos - crlf_pos)
  if ¬ listStartsWith CRLF seg then .err .boolInvalidTerminator
  else .ok (.boolean boolean, input.drop crlf_end_pos)

/-- Embeds `bulk_string::parse` of `src/parser/resp/bulk_string.rs`,
including the `REDIS0011` RDB-file branch and the unconditional
`data_end_pos + CRLF.len()` remainder index, which panics when fewer
than two bytes follow the declared data. -/
def bulkStringParse (input : List Nat) : PRes (RType × List Nat) :=
  if input.length < 4 then .err (.bulkInsufficientData input.length) else
  let bytes := rread input
  bytes.first.bind fun first_byte =>
  if first_byte ≠ 36 then .err (.invalidFirstByte first_byte 36) else
  bytes.find_crlf.bind fun (len_end_pos, data_start_pos) =>
  ((bytes.rslice 1 len_end_pos).parse_i64).bind fun (length, bytes1) =>
  if length = -1 then .ok (.null, input.drop data_start_pos) else
  -- `length as usize` reinterprets the i64 two's-complement bits
  let lenU := (length % (2 ^ 64 : Int)).toNat
  -- usize addition overflow is a panic (debug profile)
  if data_start_pos + lenU ≥ 2 ^ 64 then .crash else
  if data_start_pos + lenU > input.length then
    .err (.bulkInvalidLength lenU input.length) else
  let data_end_pos := data_start_pos + lenU
  ((bytes1.rslice data_start_pos data_end_pos).as_bytes).bind fun (bulk, _) =>
  if listStartsWith (strBytes "REDIS0011") bulk then
    (if data_end_pos + CRLF.length ≤ input.length then
      .ok (.rdbFile bulk, input.drop (data_end_pos + CRLF.length))
    else .crash)
  else if isValidUtf8 bulk then
    (if data_end_pos + CRLF.length ≤ input.length then
      .ok (.bulkString bulk, input.drop (data_end_pos + CRLF.length))
    else .crash)
  else .err .utf8

/-- Embeds `bulk_error::parse` of `src/parser/resp/bulk_error.rs`.  The
source never bounds-checks the declared length, so the data slice is
clamp-extracted and the remainder index can panic. -/
def bulkErrorParse (input : List Nat) : PRes (RType × List Nat) :=
  let bytes := rread input
  bytes.first.bind fun first_byte =>
  if first_byte ≠ 33 then .err (.invalidFirstByte first_byte 33) else
  bytes.find_crlf.bind fun (len_end_pos, data_start_pos) =>
  ((bytes.rslice 1 len_end_pos).parse_i64).bind fun (length, bytes1) =>
  let lenU := (length % (2 ^ 64 : Int)).toNat
  if data_start_pos + lenU ≥ 2 ^ 64 then .crash else
  let error_end_pos := data_start_pos + lenU
  ((bytes1.rslice data_start_pos error_end_pos).as_string).bind fun (msg, _) =>
  if error_end_pos + CRLF.length ≤ input.length then
    .ok (.bulkError msg, input.drop (error_end_pos + CRLF.length))
  else .crash

/-- Embeds `verbatim_string::parse` of
`src/parser/resp/verbatim_string.rs`.  The `split(b":")` call panics via
`unwrap` when no colon lies inside the data window (the
`MissingEncodingSeparator` error is unreachable). -/
def verbatimStringParse (input : List Nat) : PRes (RType × List Nat) :=
  let bytes := rread input
  bytes.first.bind fun first_byte =>
  if first_byte ≠ 61 then .err (.invalidFirstByte first_byte 61) else
  bytes.find_crlf.bind fun (len_end_pos, data_start_pos) =>
  ((bytes.rslice 1 len_end_pos).parse_i64).bind fun (length, bytes1) =>
  let lenU := (length % (2 ^ 64 : Int)).toNat
  if data_start_pos + 3 + 1 + lenU + CRLF.length ≥ 2 ^ 64 then .crash else
  let total_length := data_start_pos + 3 + 1 + lenU + CRLF.length
  if input.length < total_length then
    .err (.verbatimInvalidLength total_length input.length) else
  let data := bytes1.rslice data_start_pos (data_start_pos + lenU)
  (data.split [58]).bind fun (encoding_part, verbatim_string_part) =>
  let verbatim_string := verbatim_string_part.rslice 0 lenU
  encoding_part.as_string.bind fun (enc, _) =>
  verbatim_string.as_string.bind fun (vs, _) =>
  .ok (.verbatimString enc vs, input.drop total_length)

/-- Models `HashMap::insert`: overwrite the value of an existing equal
key, otherwise add the pair (list position = one iteration order). -/
def mapInsert (m : List (RType × RType)) (k v : RType) : List (RType × RType) :=
  match m with
  | [] => [(k, v)]
  | (k0, v0) :: rest =>
    if RType.beq k0 k then (k0, v) :: rest else (k0, v0) :: mapInsert rest k v

/-- Models `HashSet::insert`: add the element unless an equal one is
present. -/
def setInsert (s : List RType) (x : RType) : List RType :=
  match s with
  | [] => [x]
  | y :: rest => if RType.beq y x then y :: rest else y :: setInsert rest x

/-- One step of the `for _ in 0..length` element loop shared by
`array::parse` (and reused by `set::parse`): parse `k` elements with the
given element parser (`_parse` at one less fuel), threading the
remainder. -/
def parseElemsF (rec : List Nat → PRes (RType × List Nat)) :
    Nat → List Nat → PRes (List RType × List Nat)
  | 0, input => .ok ([], input)
  | k + 1, input =>
    (rec input).bind fun (v, rest) =>
      (parseElemsF rec k rest).map fun (vs, r) => (v :: vs, r)

/-- The key/value loop of `map::parse`, inserting into the accumulated
map. -/
def parsePairsF (rec : List Nat → PRes (RType × List Nat)) :
    Nat → List Nat → List (RType × RType) → PRes (List (RType × RType) × List Nat)
  | 0, input, acc => .ok (acc, input)
  | k + 1, input, acc =>
    (rec input).bind fun (kv, rest) =>
      (rec rest).bind fun (vv, rest2) =>
        parsePairsF rec k rest2 (mapInsert acc kv vv)

/-- Embeds `array::parse` of `src/parser/resp/array.rs`; `rec` stands
for the mutually recursive `_parse`. -/
def arrayParse (rec : List Nat → PRes (RType × List Nat)) (input : List Nat) :
    PRes (RType × List Nat) :=
  if input.length < 4 then .err (.arrayInsufficientData input.length) else
  let bytes := rread input
  bytes.first.bind fun first_byte =>
  if first_byte ≠ 42 then .err (.invalidFirstByte first_byte 42) else
  bytes.find_crlf.bind fun (len_end_pos, data_start_pos) =>
  ((bytes.rslice 1 len_end_pos).parse_i64).bind fun (length, _) =>
  if length = -1 then .ok (.null, input.drop data_start_pos) else
  if length ≤ 0 then .ok (.array [], input.drop data_start_pos) else
  (parseElemsF rec length.toNat (input.drop data_start_pos)).map fun (elements, remaining) =>
    (.array elements, remaining)

/-- Embeds `map::parse` of `src/parser/resp/map.rs`. -/
def mapParse (rec : List Nat → PRes (RType × List Nat)) (input : List Nat) :
    PRes (RType × List Nat) :=
  let bytes := rread input
  bytes.first.bind fun first_byte =>
  if first_byte ≠ 37 then .err (.invalidFirstByte first_byte 37) else
  bytes.find_crlf.bind fun (len_end_pos, data_start_pos) =>
  ((bytes.rslice 1 len_end_pos).parse_i64).bind fun (length, _) =>
  if length = -1 then .ok (.null, input.drop data_start_pos) else
  if length ≤ 0 then .ok (.map [], input.drop data_start_pos) else
  (parsePairsF rec length.toNat (input.drop data_start_pos) []).map fun (m, remaining) =>
    (.map m, remaining)

/-- Embeds `set::parse` of `src/parser/resp/set.rs`.  Note the source
bug kept here: the non-empty branch returns `&input[data_start_pos..]`
as the remainder instead of the bytes left after the parsed elements. -/
def setParse (rec : List Nat → PRes (RType × List Nat)) (input : List Nat) :
    PRes (RType × List Nat) :=
  let bytes := rread input
  bytes.first.bind fun first_byte =>
  if first_byte ≠ 126 then .err (.invalidFirstByte first_byte 126) else
  bytes.find_crlf.bind fun (len_end_pos, data_start_pos) =>
  ((bytes.rslice 1 len_end_pos).parse_i64).bind fun (length, _) =>
  if length ≤ 0 then .ok (.rset [], input.drop data_start_pos) else
  (parseElemsF rec length.toNat (input.drop data_start_pos)).map fun (elements, _) =>
    (.rset (elements.foldl setInsert []), input.drop data_start_pos)

/-- Embeds the dispatch of `_parse` in `src/parser/mod.rs`: the first
byte selects the sub-parser; anything else is the format-string error. -/
def parseOneF (rec : List Nat → PRes (RType × List Nat)) (input : List Nat) :
    PRes (RType × List Nat) :=
  match input.head? with
  | none => .err .emptyInput
  | some b =>
    if b = 43 then simpleStringParse input
    else if b = 45 then simpleErrorParse input
    else if b = 58 then integerParse input
    else if b = 36 then bulkStringParse input
    else if b = 42 then arrayParse rec input
    else if b = 95 then nullParse input
    else if b = 35 then booleanParse input
    else if b = 44 then doubleParse input
    else if b = 40 then bigNumberParse input
    else if b = 33 then bulkErrorParse input
    else if b = 61 then verbatimStringParse input
    else if b = 37 then mapParse rec input
    else if b = 126 then setParse rec input
    else .err .topInvalidFirstByte

/-- Fueled `_parse`; the fuel bounds the nesting depth of aggregate
values and is a termination device only (each nesting level consumes
several input bytes, so the canonical fuel below never runs out). -/
def parseOne : Nat → List Nat → PRes (RType × List Nat)
  | 0, _ => .crash
  | fuel + 1, input => parseOneF (parseOne fuel) input

/-- Fueled top-level loop of `parse` in `src/parser/mod.rs`: parse
elements until the remainder is empty; errors abort the whole parse. -/
def parseLoop : Nat → List Nat → PRes (List RType)
  | _, [] => .ok []
  | 0, _ => .crash
  | n + 1, input =>
    (parseOne (input.length + 1) input).bind fun (v, rest) =>
      (parseLoop n rest).map (v :: ·)

/-- Embeds `parser::parse`: all top-level values of the input, requiring
the input to be consumed entirely (the Rust loop runs until `remaining`
is empty; there is no trailing-bytes result). -/
def parse (input : List Nat) : PRes (List RType) := parseLoop input.length input

/-! ## Keyspace store, `src/database/mod.rs` -/

/-- Embeds `Item`: the stored value and the optional TTL in
milliseconds.  The `created_at : Instant` field is represented by taking
the elapsed-milliseconds-since-creation as a parameter of `get`. -/
structure DbItem where
  value : RType
  expires_at : Option Nat
deriving Repr

/-- Association-list model of the `HashMap` keyspace, in insertion
order. -/
abbrev Db := List (RType × DbItem)

/-- Embeds `Database::set`: `HashMap::insert` with a fresh `created_at`
(replace the item of an existing equal key, else append). -/
def dbSet (db : Db) (key : RType) (value : RType) (expires_at : Option Nat) : Db :=
  match db with
  | [] => [(key, { value, expires_at })]
  | (k0, it0) :: rest =>
    if RType.beq k0 key then (k0, { value, expires_at }) :: rest
    else (k0, it0) :: dbSet rest key value expires_at

/-- Keyspace lookup (`HashMap::get`). -/
def dbFind (db : Db) (key : RType) : Option DbItem :=
  match db with
  | [] => none
  | (k0, it0) :: rest => if RType.beq k0 key then some it0 else dbFind rest key

/-- Embeds the expiry logic of `Database::get` for one item: `elapsed`
is `created_at.elapsed().as_millis()`; an item with a TTL is invisible
once `elapsed ≥ expires_at`. -/
def dbGetItem (item : DbItem) (elapsed : Nat) : Option RType :=
  if item.expires_at.isSome then
    if elapsed ≥ item.expires_at.getD 0 then none else some item.value
  else some item.value

/-- Embeds `Database::get`: lookup then expiry check, with the same
elapsed time supplied for the looked-up item. -/
def dbGet (db : Db) (key : RType) (elapsed : Nat) : Option RType :=
  match dbFind db key with
  | none => none
  | some item => dbGetItem item elapsed

/-! ## Connection-level command handling
(`src/server/connection.rs`, `src/commands/mod.rs`, `ping.rs`, `set.rs`,
`replconf.rs`) -/

/-- One write performed on a connection.  `raw` carries the exact bytes;
`errReply` is a `write_error`/SimpleError reply whose dynamic
interpolations (argument counts, debug dumps) are elided since no claim
inspects them; `okReply` is `write_ok` (`+OK\r\n`); `parseErrReply` is
the `-ERR {e}\r\n` reply of `Connection::handle` for a parse error. -/
inductive WEvent where
  | raw (bs : List Nat)
  | errReply (msg : String)
  | okReply
  | parseErrReply (e : PErr)
deriving Repr

/-- The per-connection slice of the shared server state that the
modelled commands touch, plus the observable writes. -/
structure ConnEffects where
  repl_offset : Nat
  master_repl_offset : Nat
  db : Db
  writes : List WEvent
  acksForwarded : List Nat
deriving Repr

/-- Append one write event. -/
def ConnEffects.write (st : ConnEffects) (w : WEvent) : ConnEffects :=
  { st with writes := st.writes ++ [w] }

/-- Result of a modelled handling step: `crash` is a Rust panic;
`unmodelled` marks a command outside the modelled fragment
(PING/SET/REPLCONF), whose handler is not embedded here. -/
inductive MRes (α : Type) where
  | ok (a : α)
  | crash
  | unmodelled
deriving Repr

/-- Sequencing for `MRes`. -/
def MRes.bind {α β : Type} : MRes α → (α → MRes β) → MRes β
  | .ok a, f => f a
  | .crash, _ => .crash
  | .unmodelled, _ => .unmodelled

/-- The connection kind of `src/server/connection.rs`. -/
inductive Kind where
  | main
  | replication
deriving Repr, DecidableEq

/-- Embeds `ping::command` of `src/commands/ping.rs`: reply `+PONG` on a
Main connection; on a Replication connection instead advance
`repl_offset` by the encoded length of the command array. -/
def pingCommand (kind : Kind) (st : ConnEffects) (args : List RType) : ConnEffects :=
  if kind = .main then
    st.write (.raw (RType.simpleString (strBytes "PONG")).asBytes)
  else
    { st with repl_offset := st.repl_offset + (RType.array args).encLen }

/-- Tail of `set::command` after the TTL decision: store the entry; a
master replies OK and advances `master_repl_offset` by the encoded
command length, a replica advances `repl_offset`.  (Only the > 3
argument path reaches this accounting in the source.) -/
def setFinish (isMaster : Bool) (st : ConnEffects) (key value : RType)
    (ms : Option Nat) (len : Nat) : ConnEffects :=
  let st1 := { st with db := dbSet st.db key value ms }
  if isMaster then
    { st1.write .okReply with master_repl_offset := st1.master_repl_offset + len }
  else
    { st1 with repl_offset := st1.repl_offset + len }

/-- Embeds `set::command` of `src/commands/set.rs`.  Source quirks kept:
the option name is taken from `args[3].to_string()` — the RESP `Display`
rendering, so a `BulkString("PX")` argument produces `$2\r\nPX\r\n` and
never matches `"PX"` — and every non-matching 4th argument yields the
hard-coded TTL `Some(7)`; the exactly-3-argument path stores without TTL
and performs no offset accounting. -/
def setCommand (isMaster : Bool) (st : ConnEffects) (args : List RType) : ConnEffects :=
  let len := (RType.array args).encLen
  if args.length < 3 then
    (if isMaster then st.write (.errReply "ERR wrong number of arguments for 'SET' command")
     else st)
  else
    match args.get? 1, args.get? 2 with
    | some key, some value =>
      if args.length = 3 then
        let st1 := { st with db := dbSet st.db key value none }
        if isMaster then st1.write .okReply else st1
      else
        match args.get? 3 with
        | none => st
        | some a3 =>
          if asciiUpper a3.display = strBytes "PX" then
            match args.get? 4 with
            | some (.bulkString time) =>
              match rustParseU64 time with
              | some t => setFinish isMaster st key value (some t) len
              | none => st.write (.errReply "ERR invalid time")
            | _ =>
              if isMaster then st.write (.errReply "ERR invalid time") else st
          else setFinish isMaster st key value (some 7) len
    | _, _ => st

/-- Embeds `replconf::get_ack` of `src/commands/replconf.rs`: on a
master an error; on a replica reply `REPLCONF ACK <repl_offset>` with
the offset read *before* any accounting for this GETACK, then add the
hard-coded 37 bytes of `REPLCONF GETACK *`. -/
def getAckCommand (isMaster : Bool) (st : ConnEffects) : ConnEffects :=
  if isMaster then st.write (.errReply "ERR GETACK can only be called on a replica")
  else
    let response := RType.array [.bulkString (strBytes "REPLCONF"),
      .bulkString (strBytes "ACK"), .bulkString (natToBytes st.repl_offset)]
    let st1 := st.write (.raw response.asBytes)
    { st1 with repl_offset := st1.repl_offset + 37 }

/-- Embeds `replconf::ack`: parse the offset, forward it on the wait
channel, reply OK. -/
def ackCommand (st : ConnEffects) (args : List RType) : ConnEffects :=
  match args.get? 1 with
  | some (.bulkString offset) =>
    match rustParseU64 offset with
    | some o => ({ st with acksForwarded := st.acksForwarded ++ [o] }).write .okReply
    | none => st.write (.errReply "ERR failed to parse offset as u64")
  | _ => st.write (.errReply "ERR invalid offset")

/-- Embeds `replconf::command` (dispatch over the subcommand; `args` is
the command array without the leading `REPLCONF`). -/
def replconfCommand (isMaster : Bool) (st : ConnEffects) (args : List RType) : ConnEffects :=
  if args.length < 2 then
    st.write (.errReply "ERR wrong number of arguments for 'REPLCONF' command")
  else
    match args.get? 0 with
    | some (.bulkString sub) =>
      let u := asciiUpper sub
      if u = strBytes "LISTENING-PORT" then st.write .okReply
      else if u = strBytes "CAPA" then st.write .okReply
      else if u = strBytes "GETACK" then getAckCommand isMaster st
      else if u = strBytes "ACK" then ackCommand st args
      else st.write .okReply
    | _ => st.write (.errReply "ERR invalid subcommand")

/-- Embeds the modelled fragment of `commands::handle`
(`src/commands/mod.rs`): PING, SET (whose broadcast publishes on the
channel and does not touch the state modelled here) and REPLCONF; the
remaining commands are outside the fragment (`unmodelled`). -/
def handleCommand (kind : Kind) (isMaster : Bool) (st : ConnEffects) (cmd : List RType) :
    MRes ConnEffects :=
  match cmd.get? 0 with
  | some (.bulkString command) =>
    let u := asciiUpper command
    if u = strBytes "PING" then .ok (pingCommand kind st cmd)
    else if u = strBytes "SET" then .ok (setCommand isMaster st cmd)
    else if u = strBytes "REPLCONF" then .ok (replconfCommand isMaster st (cmd.drop 1))
    else .unmodelled
  | _ => .ok (st.write (.errReply "ERR unknown command"))

/-- Embeds the offset-accounting `match &command[0]` block that
`Connection::handle` runs after dispatching each command: it adds `len`
— the length of the *whole read buffer* — once per SET / PING /
REPLCONF-GETACK command, conditioned on the server role (not the
connection kind).  Indexing `command[0]` or `command[1]` out of bounds
panics. -/
def connAccounting (isMaster : Bool) (st : ConnEffects) (cmd : List RType) (len : Nat) :
    MRes ConnEffects :=
  match cmd.get? 0 with
  | none => .crash
  | some (.bulkString c) =>
    let u := asciiUpper c
    if u = strBytes "SET" then
      .ok (if ¬ isMaster then { st with repl_offset := st.repl_offset + len }
        else { st with master_repl_offset := st.master_repl_offset + len })
    else if u = strBytes "PING" then
      .ok (if ¬ isMaster then { st with repl_offset := st.repl_offset + len } else st)
    else if u = strBytes "REPLCONF" then
      match cmd.get? 1 with
      | none => .crash
      | some (.bulkString sub) =>
        if asciiUpper sub = strBytes "GETACK" ∧ ¬ isMaster then
          .ok { st with repl_offset := st.repl_offset + len }
        else .ok st
      | some _ => .ok st
    else .ok st
  | some _ => .ok st

/-- The per-command body of the `for cmd in cmds` loop of
`Connection::handle`: dispatch an Array command then run the accounting
block; skip an RDBFile frame; reply `ERR unknown command` to any other
top-level value. -/
def handleParsed (kind : Kind) (isMaster : Bool) (len : Nat) :
    ConnEffects → List RType → MRes ConnEffects
  | st, [] => .ok st
  | st, c :: cs =>
    match c with
    | .array command =>
      (handleCommand kind isMaster st command).bind fun st1 =>
        (connAccounting isMaster st1 command len).bind fun st2 =>
          handleParsed kind isMaster len st2 cs
    | .rdbFile _ => handleParsed kind isMaster len st cs
    | _ =>
      handleParsed kind isMaster len
        (st.write (.raw (RType.simpleError (strBytes "ERR unknown command\r\n")).asBytes)) cs

/-- Embeds one iteration of the read loop of `Connection::handle` for a
non-empty read buffer: parse the buffer, reply `-ERR …` on a parse
error, otherwise process every parsed command. -/
def connectionStep (kind : Kind) (isMaster : Bool) (st : ConnEffects) (buffer : List Nat) :
    MRes ConnEffects :=
  match parse buffer with
  | .ok cmds => handleParsed kind isMaster buffer.length st cmds
  | .err e => .ok (st.write (.parseErrReply e))
  | .crash => .crash

/-! ## Streams: XADD (`src/commands/xadd.rs`), `StreamID`
(`src/parser/resp/stream.rs`) and XRANGE (`src/commands/xrange.rs`) -/

/-- Field/value pairs of one stream entry (Rust `HashMap<String,
String>` contents in one iteration order). -/
abbrev Fields := List (List Nat × List Nat)

/-- A stream as `xadd.rs` stores it: entries keyed by the *raw* ID
string supplied to XADD (`stream.push((id.to_string(), fields))`). -/
abbrev XStream := List (List Nat × Fields)

/-- Embeds `simple_parse_id` of `src/commands/xadd.rs`: split at the
first `-`; any unparsable side (including `*`) becomes 0 via
`unwrap_or(0)`; no `-` at all gives `(0, 0)`. -/
def simple_parse_id (id : List Nat) : Nat × Nat :=
  match splitAtByte 45 id with
  | some (ms, seq) => ((rustParseU64 ms).getD 0, (rustParseU64 seq).getD 0)
  | none => (0, 0)

/-- Embeds `parse_milliseconds` of `src/commands/xadd.rs` (its match is
a single catch-all: plain `parse::<u64>().unwrap_or(0)`; unlike
`stream.rs` there is no `*` arm, so this never consults the clock). -/
def xaddParseMilliseconds (s : List Nat) : Nat := (rustParseU64 s).getD 0

/-- Embeds `parse_sequence` of `src/commands/xadd.rs`: `*` resolves
against the last entry (`last.seq + 1` on equal ms, else 0; 1 with no
prior entry); anything else parses with `unwrap_or(0)`. -/
def xaddParseSequence (s : List Nat) (ms : Nat) (last : Option (List Nat × Fields)) : Nat :=
  if s = [42] then
    match last with
    | some (lastId, _) =>
      let p := simple_parse_id lastId
      if ms = p.1 then p.2 + 1 else 0
    | none => 1
  else (rustParseU64 s).getD 0

/-- Embeds the file-local `parse_id` of `src/commands/xadd.rs` (the one
`xadd::command` calls): split at the first `-`; an ID without `-` —
including a bare `*` — resolves to `(0, 0)`. -/
def xaddParseId (id : List Nat) (last : Option (List Nat × Fields)) : Nat × Nat :=
  match splitAtByte 45 id with
  | some (msS, seqS) =>
    let ms := xaddParseMilliseconds msS
    (ms, xaddParseSequence seqS ms last)
  | none => (0, 0)

/-- Reply of one XADD: a SimpleError rejection (message kept verbatim)
or the resolved `(ms, seq)` returned as the BulkString `ms-seq`. -/
inductive XaddResult where
  | rejected (msg : String)
  | appended (resolved : Nat × Nat)
deriving Repr, DecidableEq

/-- Embeds the ID validation and append logic of `xadd::command`
(`src/commands/xadd.rs` lines 62–115) on the target stream: resolve the
ID against the last entry, reject `(0,0)`, reject an ID not strictly
greater (lexicographically) than the reparse of the last entry's stored
ID string, else push the entry under its *raw* ID argument.  Returns the
reply and the resulting stream. -/
def xaddStep (stream : XStream) (id : List Nat) (fields : Fields) :
    XaddResult × XStream :=
  let last_entry := stream.getLast?
  let p := xaddParseId id last_entry
  if p.1 = 0 ∧ p.2 = 0 then
    (.rejected "ERR The ID specified in XADD must be greater than 0-0", stream)
  else
    match last_entry with
    | some lastE =>
      let q := simple_parse_id lastE.1
      if p.1 < q.1 ∨ (p.1 = q.1 ∧ p.2 ≤ q.2) then
        (.rejected
          "ERR The ID specified in XADD is equal or smaller than the target stream top item",
          stream)
      else (.appended p, stream ++ [(id, fields)])
    | none => (.appended p, stream ++ [(id, fields)])

/-- Rendering of a resolved ID, `format!("{}-{}", ms, seq)`. -/
def idRender (p : Nat × Nat) : List Nat := natToBytes p.1 ++ [45] ++ natToBytes p.2

/-- Lexicographic strict order on stream IDs, the order the spec
states. -/
def idLexLt (a b : Nat × Nat) : Prop := a.1 < b.1 ∨ (a.1 = b.1 ∧ a.2 < b.2)

/-- Lexicographic order, non-strict. -/
def idLexLe (a b : Nat × Nat) : Prop := a.1 < b.1 ∨ (a.1 = b.1 ∧ a.2 ≤ b.2)

/-- Embeds `StreamID` of `src/parser/resp/stream.rs`. -/
structure StreamID where
  milliseconds : Nat
  sequence : Nat
deriving Repr, DecidableEq

/-- Embeds `StreamID::from_id` (used by `xrange.rs`): split at the first
`-` with `unwrap_or(0)` on both sides, `(0,0)` without a `-`. -/
def StreamID.from_id (id : List Nat) : StreamID :=
  match splitAtByte 45 id with
  | some (ms, seq) => ⟨(rustParseU64 ms).getD 0, (rustParseU64 seq).getD 0⟩
  | none => ⟨0, 0⟩

/-- Embeds `StreamID::parse` of `src/parser/resp/stream.rs` — the
spec-conformant `*` handling that `xadd::command` does *not* call (it
uses the file-local `parse_id` above); `now` stands for
`get_unix_timestamp()`.  Kept to document the divergence. -/
def StreamID.parse (now : Nat) (id : List Nat) (last : Option (List Nat × Fields)) : StreamID :=
  if id = [42] then
    match last with
    | some (lastId, _) =>
      let l := StreamID.from_id lastId
      if now = l.milliseconds then ⟨now, l.sequence + 1⟩ else ⟨now, 0⟩
    | none => ⟨now, 0⟩
  else
    match splitAtByte 45 id with
    | some (msS, seqS) =>
      let ms := if msS = [42] then now else (rustParseU64 msS).getD 0
      let seq :=
        if seqS = [42] then
          match last with
          | some (lastId, _) =>
            let l := StreamID.from_id lastId
            if ms = l.milliseconds then l.sequence + 1 else 0
          | none => 1
        else (rustParseU64 seqS).getD 0
      ⟨ms, seq⟩
    | none => ⟨now, 0⟩

/-- Rendering of a `StreamID`, `StreamID::to_string`. -/
def StreamID.render (s : StreamID) : List Nat :=
  natToBytes s.milliseconds ++ [45] ++ natToBytes s.sequence

/-- Flattened field/value pairs of an entry as `xrange.rs` renders them
(`flat_map` into `[field, value, …]` BulkStrings). -/
def flattenFields (fs : Fields) : List RType :=
  fs.foldr (fun kv acc => RType.bulkString kv.1 :: RType.bulkString kv.2 :: acc) []

/-- Embeds the range scan of `xrange::command` (`src/commands/xrange.rs`
lines 63–89) over a stream whose entries carry `StreamID`s: keep an
entry iff both its `milliseconds` *and* its `sequence` lie within the
respective bounds (a componentwise comparison, not the lexicographic
order), rendered as `[id, Array(flattened pairs)]` in stream order. -/
def xrangeEntries (stream : List (StreamID × Fields)) (startS endS : List Nat) : List RType :=
  let start := StreamID.from_id startS
  let e := StreamID.from_id endS
  stream.filterMap fun entry =>
    let id := entry.1
    if (id.milliseconds ≥ start.milliseconds ∧ id.sequence ≥ start.sequence) ∧
        (id.milliseconds ≤ e.milliseconds ∧ id.sequence ≤ e.sequence) then
      some (.array [.bulkString id.render, .array (flattenFields entry.2)])
    else none

/-! ## WAIT (`src/commands/wait.rs`) -/

/-- Embeds the inner `try_recv` drain of `wait::command`: each received
offset ≥ the snapshot of `master_repl_offset` counts one synced replica;
the drain stops early once `synced ≥ desired` (and otherwise when the
channel is empty, i.e. the batch is exhausted). -/
def drainBatch (masterOffset desired : Nat) : Nat → List Nat → Nat
  | synced, [] => synced
  | synced, o :: os =>
    let s := if o ≥ masterOffset then synced + 1 else synced
    if s ≥ desired then s else drainBatch masterOffset desired s os

/-- Embeds the timed `while` loop of `wait::command`.  Real time is
abstracted: each element of `batches` is the list of ack offsets drained
after one 50 ms sleep, and an empty `batches` list means the deadline
has passed.  Returns `(synced, later_bytes, getack_sent)`; the GETACK
broadcast (37 encoded bytes) happens on the first iteration that finds
`synced < desired`. -/
def waitLoop (masterOffset desired : Nat) :
    List (List Nat) → Nat → Bool → Nat × Nat × Bool
  | [], synced, _ => (synced, 0, false)
  | b :: bs, synced, first =>
    if synced ≥ desired then (synced, 0, false)
    else
      let lb := if first then 37 else 0
      let sent := first
      let s1 := drainBatch masterOffset desired synced b
      let r := waitLoop masterOffset desired bs s1 false
      (r.1, lb + r.2.1, sent || r.2.2)

/-- Outcome of one WAIT invocation in the model. -/
structure WaitOutcome where
  reply : Nat
  laterBytes : Nat
  masterOffsetAfter : Nat
  sentGetAck : Bool
deriving Repr, DecidableEq

/-- Embeds `wait::command` of `src/commands/wait.rs` on a master
(replicas' count, the desired-replicas argument and the snapshot of
`master_repl_offset` as inputs; the role/argument error paths reply
without running the algorithm and are omitted here).  The final
`master_repl_offset += later_bytes` of the source (lines 161–167) is
commented out, so the offset after the command equals the snapshot. -/
def waitCommand (masterOffset replicas desiredArg : Nat) (batches : List (List Nat)) :
    WaitOutcome :=
  let desired := if desiredArg > replicas then replicas else desiredArg
  if masterOffset = 0 then
    { reply := replicas, laterBytes := 0, masterOffsetAfter := masterOffset,
      sentGetAck := false }
  else
    let r := waitLoop masterOffset desired batches 0 true
    { reply := r.1, laterBytes := r.2.1, masterOffsetAfter := masterOffset,
      sentGetAck := r.2.2 }

/-! ## Round-trip well-formedness and nesting depth -/

/-- The key `k` differs (under `beq`, compared with `k` first) from every
key of the pair list. -/
def keyFresh (k : RType) : List (RType × RType) → Bool
  | [] => true
  | (k1, _) :: rest => !RType.beq k k1 && keyFresh k rest

/-- Pairwise-distinct keys (under `beq`). -/
def keysDistinct : List (RType × RType) → Bool
  | [] => true
  | (k, _) :: rest => keyFresh k rest && keysDistinct rest

mutual

/-- The accepted values whose `as_bytes` encoding decodes back to the
value itself.  The conditions record exactly what the source forces:
CRLF-free simple strings/errors (the decoder stops at the first CRLF),
i64-range integers, bulk strings not carrying the `REDIS0011` magic,
3-byte colon-free verbatim encodings with data of at least 4 bytes (the
`split(b":")` window), distinct map keys, empty sets (the set parser
returns the wrong remainder for non-empty sets), and no Double
(floating-point formatting), BulkError (the encoder drops the payload)
or RDBFile (documented asymmetric framing). -/
def wfRT : RType → Bool
  | .simpleString s => isValidUtf8 s && crlfFree s
  | .simpleError s => isValidUtf8 s && crlfFree s
  | .integer i => decide (-(2 ^ 63 : Int) ≤ i ∧ i < 2 ^ 63)
  | .bulkString s =>
    isValidUtf8 s && !listStartsWith (strBytes "REDIS0011") s && decide (s.length < 2 ^ 63)
  | .array xs => decide (xs.length < 2 ^ 63) && wfList xs
  | .null => true
  | .boolean _ => true
  | .double _ => false
  | .bigNumber i => decide (-(2 ^ 63 : Int) ≤ i ∧ i < 2 ^ 63)
  | .bulkError _ => false
  | .verbatimString enc data =>
    decide (enc.length = 3) && !(enc.contains 58) && isValidUtf8 enc &&
      isValidUtf8 data && decide (4 ≤ data.length) && decide (data.length < 2 ^ 63)
  | .map ps => decide (ps.length < 2 ^ 63) && keysDistinct ps && wfPairs ps
  | .rset xs => xs.isEmpty
  | .rdbFile _ => false

/-- Elementwise `wfRT`. -/
def wfList : List RType → Bool
  | [] => true
  | x :: xs => wfRT x && wfList xs

/-- Pairwise `wfRT`. -/
def wfPairs : List (RType × RType) → Bool
  | [] => true
  | (k, v) :: ps => wfRT k && wfRT v && wfPairs ps

end

mutual

/-- Aggregate nesting depth of a value (the fuel the parser needs). -/
def depthRT : RType → Nat
  | .array xs => depthList xs + 1
  | .map ps => depthPairs ps + 1
  | .rset xs => depthList xs + 1
  | _ => 0

/-- Maximum depth of a list of values. -/
def depthList : List RType → Nat
  | [] => 0
  | x :: xs => max (depthRT x) (depthList xs)

/-- Maximum depth over pairs. -/
def depthPairs : List (RType × RType) → Nat
  | [] => 0
  | (k, v) :: ps => max (max (depthRT k) (depthRT v)) (depthPairs ps)

end

/-! ## Concrete commands used by the claims -/

/-- The command array `["PING"]`. -/
def pingCmd : List RType := [.bulkString (strBytes "PING")]

/-- Wire bytes of a lone PING (`*1\r\n$4\r\nPING\r\n`, 14 bytes). -/
def pingBuf : List Nat := (RType.array pingCmd).asBytes

/-- The command array `["REPLCONF", "GETACK", "*"]`. -/
def getackCmd : List RType :=
  [.bulkString (strBytes "REPLCONF"), .bulkString (strBytes "GETACK"), .bulkString (strBytes "*")]

/-- Wire bytes of `REPLCONF GETACK *` (37 bytes). -/
def getackBuf : List Nat := (RType.array getackCmd).asBytes

/-- The command array `["SET", k, v]`. -/
def setCmdOf (k v : List Nat) : List RType :=
  [.bulkString (strBytes "SET"), .bulkString k, .bulkString v]

/-- Wire bytes of `SET k v`. -/
def setBufOf (k v : List Nat) : List Nat := (RType.array (setCmdOf k v)).asBytes

/-- The array `["REPLCONF", "ACK", "<n>"]` (both the replica's reply and
the inbound ACK command share this shape). -/
def replconfAckArr (n : Nat) : List RType :=
  [.bulkString (strBytes "REPLCONF"), .bulkString (strBytes "ACK"), .bulkString (natToBytes n)]

/-- Wire bytes of `REPLCONF ACK <n>`. -/
def ackBufOf (n : Nat) : List Nat := (RType.array (replconfAckArr n)).asBytes

/-! # Theorems -/


theorem bytesToNat_append_one (l : List Nat) (d : Nat) :
    bytesToNat (l ++ [d]) = bytesToNat l * 10 + (d - 48) := by
  simp [bytesToNat, List.foldl_append]

theorem natToBytesAux_spec :
    ∀ fuel n, 0 < fuel → n < 10 ^ fuel →
      natToBytesAux fuel n ≠ [] ∧ (∀ b ∈ natToBytesAux fuel n, 48 ≤ b ∧ b ≤ 57) ∧
        bytesToNat (natToBytesAux fuel n) = n := by
  intro fuel
  induction fuel with
  | zero => intro n h; omega
  | succ f ih =>
    intro n _ hn
    by_cases h : n < 10
    · refine ⟨by simp [natToBytesAux, h], ?_, ?_⟩
      · intro b hb
        simp [natToBytesAux, h] at hb
        omega
      · simp [natToBytesAux, h, bytesToNat]
    · have hd : n / 10 < 10 ^ f := by
        rw [Nat.div_lt_iff_lt_mul (by norm_num : 0 < 10)]
        calc n < 10 ^ (f + 1) := hn
          _ = 10 ^ f * 10 := by ring
      have hf : 0 < f := by
        rcases Nat.eq_zero_or_pos f with h0 | h0
        · subst h0; simp at hd; omega
        · exact h0
      obtain ⟨h1, h2, h3⟩ := ih (n / 10) hf hd
      refine ⟨by simp [natToBytesAux, h], ?_, ?_⟩
      · intro b hb
        simp only [natToBytesAux, if_neg h, List.mem_append, List.mem_singleton] at hb
        rcases hb with hb | hb
        · exact h2 b hb
        · subst hb; omega
      · simp only [natToBytesAux, if_neg h]
        rw [bytesToNat_append_one, h3]
        omega

theorem n_lt_ten_pow_succ (n : Nat) : n < 10 ^ (n + 1) := by
  have h1 : n < 10 ^ n := Nat.lt_pow_self (by norm_num) n
  have h2 : 10 ^ n ≤ 10 ^ (n + 1) := Nat.pow_le_pow_right (by norm_num) (Nat.le_succ n)
  omega

theorem natToBytes_ne_nil (n : Nat) : natToBytes n ≠ [] :=
  (natToBytesAux_spec (n + 1) n (Nat.succ_pos n) (n_lt_ten_pow_succ n)).1

theorem natToBytes_digits (n : Nat) : ∀ b ∈ natToBytes n, 48 ≤ b ∧ b ≤ 57 :=
  (natToBytesAux_spec (n + 1) n (Nat.succ_pos n) (n_lt_ten_pow_succ n)).2.1

theorem bytesToNat_natToBytes (n : Nat) : bytesToNat (natToBytes n) = n :=
  (natToBytesAux_spec (n + 1) n (Nat.succ_pos n) (n_lt_ten_pow_succ n)).2.2

theorem startsWithCRLF_two (a b : Nat) (t : List Nat) :
    listStartsWith CRLF (a :: b :: t) = (decide (a = 13) && decide (b = 10)) := by
  simp [listStartsWith, CRLF]

theorem startsWithCRLF_one (a : Nat) : listStartsWith CRLF [a] = false := by
  simp [listStartsWith, CRLF]

theorem findCRLF_cons (x : Nat) (rest : List Nat) :
    findCRLF (x :: rest) =
      if listStartsWith CRLF (x :: rest) then some 0 else (findCRLF rest).map (· + 1) := rfl

theorem crlfFree_of_no13 (l : List Nat) (h : ∀ b ∈ l, b ≠ 13) : findCRLF l = none := by
  induction l with
  | nil => rfl
  | cons x rest ih =>
    rw [findCRLF_cons]
    have hx : x ≠ 13 := h x (List.mem_cons_self x rest)
    have hsw : listStartsWith CRLF (x :: rest) = false := by
      cases rest with
      | nil => exact startsWithCRLF_one x
      | cons y rr => rw [startsWithCRLF_two]; simp [hx]
    rw [hsw]
    simp [ih fun b hb => h b (List.mem_cons_of_mem x hb)]

theorem findCRLF_append_crlf (l r : List Nat) (h : findCRLF l = none) :
    findCRLF (l ++ 13 :: 10 :: r) = some l.length := by
  induction l with
  | nil => simp [findCRLF, findWindow, listStartsWith, CRLF]
  | cons x rest ih =>
    rw [findCRLF_cons] at h
    by_cases hsw : listStartsWith CRLF (x :: rest) = true
    · rw [if_pos hsw] at h; simp at h
    · rw [if_neg hsw] at h
      have h2 : findCRLF rest = none := by
        cases hr : findCRLF rest with
        | none => rfl
        | some p => rw [hr] at h; simp at h
      have hsw2 : listStartsWith CRLF (x :: (rest ++ 13 :: 10 :: r)) = false := by
        cases rest with
        | nil =>
          rw [List.nil_append, startsWithCRLF_two]
          simp
        | cons y rr =>
          rw [List.cons_append, startsWithCRLF_two]
          rw [startsWithCRLF_two] at hsw
          simpa using hsw
      rw [List.cons_append, findCRLF_cons, hsw2, ih h2]
      simp

theorem isValidUtf8_cons_ascii (x : Nat) (rest : List Nat) (hx : x < 128) :
    isValidUtf8 (x :: rest) = isValidUtf8 rest := by
  rw [isValidUtf8, if_pos hx]

theorem isValidUtf8_ascii (l : List Nat) (h : ∀ b ∈ l, b < 128) : isValidUtf8 l = true := by
  induction l with
  | nil => rfl
  | cons x rest ih =>
    rw [isValidUtf8_cons_ascii x rest (h x (List.mem_cons_self x rest))]
    exact ih fun b hb => h b (List.mem_cons_of_mem x hb)

theorem natToBytes_no13 (n : Nat) : ∀ b ∈ natToBytes n, b ≠ 13 := by
  intro b hb
  have := natToBytes_digits n b hb
  omega

theorem natToBytes_crlfFree (n : Nat) : findCRLF (natToBytes n) = none :=
  crlfFree_of_no13 _ (natToBytes_no13 n)

theorem natToBytes_ascii (n : Nat) : isValidUtf8 (natToBytes n) = true := by
  apply isValidUtf8_ascii
  intro b hb
  have := natToBytes_digits n b hb
  omega

theorem parseDigits_natToBytes (n : Nat) : parseDigits (natToBytes n) = some n := by
  have h1 := natToBytes_ne_nil n
  have h2 : (natToBytes n).all isDigitB = true := by
    rw [List.all_eq_true]
    intro b hb
    have := natToBytes_digits n b hb
    simp [isDigitB]
    omega
  simp [parseDigits, h1, h2, bytesToNat_natToBytes]

theorem natToBytes_head_digit (n : Nat) :
    ∃ hd tl, natToBytes n = hd :: tl ∧ 48 ≤ hd ∧ hd ≤ 57 := by
  rcases hne : natToBytes n with _ | ⟨hd, tl⟩
  · exact absurd hne (natToBytes_ne_nil n)
  · have := natToBytes_digits n hd (by rw [hne]; exact List.mem_cons_self _ _)
    exact ⟨hd, tl, rfl, this.1, this.2⟩

theorem natToBytes_head_ne (n c : Nat) (hc : c < 48 ∨ 57 < c) :
    ((natToBytes n).head? = some c) = False := by
  obtain ⟨hd, tl, heq, h1, h2⟩ := natToBytes_head_digit n
  rw [heq]
  simp
  omega

theorem rustParseU64_natToBytes (n : Nat) (h : n < 2 ^ 64) :
    rustParseU64 (natToBytes n) = some n := by
  simp only [rustParseU64, natToBytes_head_ne n 43 (by omega), if_false,
    parseDigits_natToBytes]
  simp [h]
  omega

theorem rustParseI64_natToBytes (n : Nat) (h : n < 2 ^ 63) :
    rustParseI64 (natToBytes n) = some (n : Int) := by
  simp only [rustParseI64, natToBytes_head_ne n 43 (by omega),
    natToBytes_head_ne n 45 (by omega), false_or, or_false, if_false,
    parseDigits_natToBytes]
  simp [h]
  omega

theorem natAbs_head_digit_ne (i : Int) (c : Nat) (hc : c < 48 ∨ 57 < c) :
    ((45 :: natToBytes i.natAbs).tail.head? = some c) = False := by
  simp only [List.tail_cons]
  exact natToBytes_head_ne _ c hc

theorem rustParseI64_intToBytes (i : Int) (hlo : -(2 ^ 63) ≤ i) (hhi : i < 2 ^ 63) :
    rustParseI64 (intToBytes i) = some i := by
  by_cases hneg : i < 0
  · have hb : i.natAbs ≤ 2 ^ 63 := by omega
    have habs : ((i.natAbs : Nat) : Int) = -i := by omega
    simp only [intToBytes, if_pos hneg, List.singleton_append]
    simp only [rustParseI64, List.head?_cons, List.tail_cons]
    norm_num
    rw [parseDigits_natToBytes]
    simp [hb, habs]
    omega
  · have hb : i.natAbs < 2 ^ 63 := by omega
    have habs : ((i.natAbs : Nat) : Int) = i := by omega
    simp only [intToBytes, if_neg hneg, List.nil_append]
    rw [rustParseI64_natToBytes i.natAbs hb, habs]

theorem intToBytes_no13 (i : Int) : ∀ b ∈ intToBytes i, b ≠ 13 := by
  intro b hb
  simp only [intToBytes] at hb
  rcases List.mem_append.mp hb with h | h
  · by_cases hneg : i < 0
    · rw [if_pos hneg] at h; simp at h; omega
    · rw [if_neg hneg] at h; simp at h
  · exact natToBytes_no13 _ b h

theorem intToBytes_crlfFree (i : Int) : findCRLF (intToBytes i) = none :=
  crlfFree_of_no13 _ (intToBytes_no13 i)

theorem intToBytes_ascii (i : Int) : isValidUtf8 (intToBytes i) = true := by
  apply isValidUtf8_ascii
  intro b hb
  simp only [intToBytes] at hb
  rcases List.mem_append.mp hb with h | h
  · by_cases hneg : i < 0
    · rw [if_pos hneg] at h; simp at h; omega
    · rw [if_neg hneg] at h; simp at h
  · have := natToBytes_digits _ b h; omega



theorem crlf_append (x : List Nat) : CRLF ++ x = 13 :: 10 :: x := rfl

theorem natToBytesAux_len (fuel n : Nat) : (natToBytesAux fuel n).length ≤ fuel := by
  induction fuel generalizing n with
  | zero => simp [natToBytesAux]
  | succ f ih =>
    by_cases h : n < 10
    · simp [natToBytesAux, h]
    · simp only [natToBytesAux, if_neg h, List.length_append, List.length_singleton]
      have := ih (n / 10)
      omega

theorem natToBytesAux_irrel :
    ∀ n f1 f2, 0 < f1 → 0 < f2 → n < 10 ^ f1 → n < 10 ^ f2 →
      natToBytesAux f1 n = natToBytesAux f2 n := by
  intro n
  induction n using Nat.strong_induction_on with
  | _ n ih =>
    intro f1 f2 h1 h2 hn1 hn2
    obtain ⟨g1, rfl⟩ := Nat.exists_eq_succ_of_ne_zero (Nat.pos_iff_ne_zero.mp h1)
    obtain ⟨g2, rfl⟩ := Nat.exists_eq_succ_of_ne_zero (Nat.pos_iff_ne_zero.mp h2)
    by_cases h : n < 10
    · simp [natToBytesAux, h]
    · simp only [natToBytesAux, if_neg h]
      have hdiv : n / 10 < n := Nat.div_lt_self (by omega) (by norm_num)
      have hg1 : 0 < g1 := by
        rcases Nat.eq_zero_or_pos g1 with h0 | h0
        · subst h0; simp at hn1; omega
        · exact h0
      have hg2 : 0 < g2 := by
        rcases Nat.eq_zero_or_pos g2 with h0 | h0
        · subst h0; simp at hn2; omega
        · exact h0
      have hb1 : n / 10 < 10 ^ g1 := by
        rw [Nat.div_lt_iff_lt_mul (by norm_num : 0 < 10)]
        calc n < 10 ^ (g1 + 1) := hn1
          _ = 10 ^ g1 * 10 := by ring
      have hb2 : n / 10 < 10 ^ g2 := by
        rw [Nat.div_lt_iff_lt_mul (by norm_num : 0 < 10)]
        calc n < 10 ^ (g2 + 1) := hn2
          _ = 10 ^ g2 * 10 := by ring
      rw [ih (n / 10) hdiv g1 g2 hg1 hg2 hb1 hb2]

theorem natToBytes_len_le (n : Nat) (k : Nat) (hk : 0 < k) (h : n < 10 ^ k) :
    (natToBytes n).length ≤ k := by
  rw [natToBytes, natToBytesAux_irrel n (n + 1) k (Nat.succ_pos n) hk (n_lt_ten_pow_succ n) h]
  exact natToBytesAux_len k n

theorem natToBytes_len_le20 (n : Nat) (h : n < 2 ^ 64) :
    (natToBytes n).length ≤ 20 := by
  apply natToBytes_len_le n 20 (by norm_num)
  calc n < 2 ^ 64 := h
    _ < 10 ^ 20 := by norm_num

theorem findCRLF_tag_digits (tag : Nat) (htag : tag ≠ 13) (d : List Nat)
    (hfree : findCRLF d = none) (tail : List Nat) :
    findCRLF (tag :: (d ++ 13 :: 10 :: tail)) = some (d.length + 1) := by
  rw [findCRLF_cons]
  have hsw : listStartsWith CRLF (tag :: (d ++ 13 :: 10 :: tail)) = false := by
    cases d with
    | nil => rw [List.nil_append, startsWithCRLF_two]; simp [htag]
    | cons x t => rw [List.cons_append, startsWithCRLF_two]; simp [htag]
  rw [hsw, findCRLF_append_crlf d tail hfree]
  simp

theorem drop_prefix_len (P S : List Nat) (k : Nat) (hk : k = P.length) :
    (P ++ S).drop k = S := by
  subst hk; exact List.drop_left P S

theorem take_prefix_len (P S : List Nat) (k : Nat) (hk : k = P.length) :
    (P ++ S).take k = P := by
  subst hk; exact List.take_left P S

theorem intCast_mod_toNat (n : Nat) (h : n < 2 ^ 64) :
    (((n : Int)) % (2 ^ 64 : Int)).toNat = n := by
  rw [Int.emod_eq_of_lt (by omega) (by exact_mod_cast h)]
  simp



theorem rslice_normal (r : BytesReader) (a b : Nat) (hab : a ≤ b)
    (ha : a < r.slice.length) (hb : b ≤ r.slice.length) :
    r.rslice a b = ⟨r.slice, a, b⟩ := by
  simp only [BytesReader.rslice]
  have h1 : (if a > b then b else a) = a := if_neg (by omega)
  have h2 : (if a > b then a else b) = b := if_neg (by omega)
  rw [h1, h2, if_neg (by omega), if_neg (by omega)]

theorem as_bytes_normal (L : List Nat) (a b : Nat) (hab : a ≤ b) (hb : b ≤ L.length) :
    BytesReader.as_bytes ⟨L, a, b⟩ = .ok ((L.drop a).take (b - a), ⟨L, 0, 0⟩) := by
  simp only [BytesReader.as_bytes]
  rw [if_pos ⟨hab, hb⟩]

theorem as_string_normal (L : List Nat) (a b : Nat) (hab : a ≤ b) (hb : b ≤ L.length)
    (hutf : isValidUtf8 ((L.drop a).take (b - a)) = true) :
    BytesReader.as_string ⟨L, a, b⟩ = .ok ((L.drop a).take (b - a), ⟨L, 0, 0⟩) := by
  rw [BytesReader.as_string, as_bytes_normal L a b hab hb]
  simp only [PRes.bind]
  rw [if_pos hutf]

theorem parse_i64_normal (L : List Nat) (a b : Nat) (hab : a ≤ b) (hb : b ≤ L.length)
    (v : Int) (hutf : isValidUtf8 ((L.drop a).take (b - a)) = true)
    (hparse : rustParseI64 ((L.drop a).take (b - a)) = some v) :
    BytesReader.parse_i64 ⟨L, a, b⟩ = .ok (v, ⟨L, 0, 0⟩) := by
  rw [BytesReader.parse_i64, as_string_normal L a b hab hb hutf]
  simp only [PRes.bind]
  rw [hparse]

theorem find_crlf_tag_digits (tag : Nat) (htag : tag ≠ 13) (d : List Nat)
    (hfree : findCRLF d = none) (tail : List Nat) (a b : Nat) :
    BytesReader.find_crlf ⟨tag :: (d ++ 13 :: 10 :: tail), a, b⟩
      = .ok (d.length + 1, d.length + 1 + 2) := by
  rw [BytesReader.find_crlf]
  show (match findCRLF (tag :: (d ++ 13 :: 10 :: tail)) with
    | some p => PRes.ok (p, p + 2)
    | none => PRes.err (.nonTerminating _)) = _
  rw [findCRLF_tag_digits tag htag d hfree tail]

theorem bulkStringParse_enc (s rest : List Nat) (hutf : isValidUtf8 s = true)
    (hred : listStartsWith (strBytes "REDIS0011") s = false) (hlen : s.length < 2 ^ 63) :
    bulkStringParse ((RType.bulkString s).asBytes ++ rest) = .ok (.bulkString s, rest) := by
  have hdl1 : 1 ≤ (natToBytes s.length).length :=
    List.length_pos.mpr (natToBytes_ne_nil s.length)
  have hdl20 : (natToBytes s.length).length ≤ 20 :=
    natToBytes_len_le20 s.length (by omega)
  have hshape : (RType.bulkString s).asBytes ++ rest
      = 36 :: (natToBytes s.length ++ 13 :: 10 :: (s ++ 13 :: 10 :: rest)) := by
    simp [RType.asBytes, CRLF]
  rw [hshape]
  have hlength : (36 :: (natToBytes s.length ++ 13 :: 10 :: (s ++ 13 :: 10 :: rest))).length
      = (natToBytes s.length).length + s.length + rest.length + 5 := by
    simp
    omega
  simp only [bulkStringParse]
  rw [if_neg (by rw [hlength]; omega)]
  have hfirst : (rread (36 :: (natToBytes s.length ++ 13 :: 10 :: (s ++ 13 :: 10 :: rest)))).first
      = .ok 36 := rfl
  rw [hfirst]
  simp only [PRes.bind]
  rw [if_neg (by simp)]
  rw [show rread (36 :: (natToBytes s.length ++ 13 :: 10 :: (s ++ 13 :: 10 :: rest)))
      = ⟨36 :: (natToBytes s.length ++ 13 :: 10 :: (s ++ 13 :: 10 :: rest)), 0,
          (36 :: (natToBytes s.length ++ 13 :: 10 :: (s ++ 13 :: 10 :: rest))).length⟩ from rfl]
  rw [find_crlf_tag_digits 36 (by omega) _ (natToBytes_crlfFree s.length) _]
  simp only [PRes.bind]
  rw [rslice_normal _ 1 ((natToBytes s.length).length + 1) (by omega)
    (by rw [hlength]; omega) (by rw [hlength]; omega)]
  have hext1 : ((36 :: (natToBytes s.length ++ 13 :: 10 :: (s ++ 13 :: 10 :: rest))).drop 1).take
      ((natToBytes s.length).length + 1 - 1) = natToBytes s.length := by
    rw [List.drop_succ_cons, List.drop_zero, Nat.add_sub_cancel]
    exact take_prefix_len _ _ _ rfl
  rw [parse_i64_normal _ 1 ((natToBytes s.length).length + 1) (by omega)
    (by rw [hlength]; omega) (s.length : Int)
    (by rw [hext1]; exact natToBytes_ascii s.length)
    (by rw [hext1]; exact rustParseI64_natToBytes s.length hlen)]
  simp only [PRes.bind]
  rw [if_neg (by omega)]
  rw [show (((s.length : Int)) % (2 ^ 64 : Int)).toNat = s.length from
    intCast_mod_toNat s.length (by omega)]
  rw [if_neg (by omega), if_neg (by rw [hlength]; omega)]
  rw [rslice_normal _ ((natToBytes s.length).length + 1 + 2)
    ((natToBytes s.length).length + 1 + 2 + s.length) (by omega)
    (by rw [hlength]; omega) (by rw [hlength]; omega)]
  rw [as_bytes_normal _ _ _ (by omega) (by rw [hlength]; omega)]
  simp only [PRes.bind]
  have hext2 : ((36 :: (natToBytes s.length ++ 13 :: 10 :: (s ++ 13 :: 10 :: rest))).drop
      ((natToBytes s.length).length + 1 + 2)).take
      ((natToBytes s.length).length + 1 + 2 + s.length - ((natToBytes s.length).length + 1 + 2))
      = s := by
    rw [Nat.add_sub_cancel_left]
    have hre : 36 :: (natToBytes s.length ++ 13 :: 10 :: (s ++ 13 :: 10 :: rest))
        = (36 :: (natToBytes s.length ++ [13, 10])) ++ (s ++ 13 :: 10 :: rest) := by
      simp
    rw [hre, drop_prefix_len _ _ _ (by simp <;> omega)]
    exact take_prefix_len _ _ _ rfl
  rw [hext2, hred]
  rw [if_neg (by simp), hutf, if_pos rfl]
  rw [if_pos (by rw [hlength]; simp [CRLF]; omega)]
  have hext3 : (36 :: (natToBytes s.length ++ 13 :: 10 :: (s ++ 13 :: 10 :: rest))).drop
      ((natToBytes s.length).length + 1 + 2 + s.length + CRLF.length) = rest := by
    have hre : 36 :: (natToBytes s.length ++ 13 :: 10 :: (s ++ 13 :: 10 :: rest))
        = (36 :: (natToBytes s.length ++ 13 :: 10 :: (s ++ [13, 10]))) ++ rest := by
      simp
    rw [hre, drop_prefix_len _ _ _ (by simp [CRLF] <;> omega)]
  rw [hext3]


theorem simpleStringParse_enc (s rest : List Nat) (hutf : isValidUtf8 s = true)
    (hfree : findCRLF s = none) :
    simpleStringParse ((RType.simpleString s).asBytes ++ rest) = .ok (.simpleString s, rest) := by
  have hshape : (RType.simpleString s).asBytes ++ rest = 43 :: (s ++ 13 :: 10 :: rest) := by
    simp [RType.asBytes, CRLF]
  rw [hshape]
  have hlength : (43 :: (s ++ 13 :: 10 :: rest)).length = s.length + rest.length + 3 := by
    simp; omega
  simp only [simpleStringParse]
  rw [show (rread (43 :: (s ++ 13 :: 10 :: rest))).first = .ok 43 from rfl]
  simp only [PRes.bind]
  rw [if_neg (by simp)]
  rw [show rread (43 :: (s ++ 13 :: 10 :: rest))
      = ⟨43 :: (s ++ 13 :: 10 :: rest), 0, (43 :: (s ++ 13 :: 10 :: rest)).length⟩ from rfl]
  rw [find_crlf_tag_digits 43 (by omega) s hfree rest]
  simp only [PRes.bind]
  rw [rslice_normal _ 1 (s.length + 1) (by omega) (by rw [hlength]; omega)
    (by rw [hlength]; omega)]
  have hext1 : ((43 :: (s ++ 13 :: 10 :: rest)).drop 1).take (s.length + 1 - 1) = s := by
    rw [List.drop_succ_cons, List.drop_zero, Nat.add_sub_cancel]
    exact take_prefix_len _ _ _ rfl
  rw [as_string_normal _ 1 (s.length + 1) (by omega) (by rw [hlength]; omega)
    (by rw [hext1]; exact hutf)]
  simp only [PRes.bind]
  rw [hext1]
  have hext2 : (43 :: (s ++ 13 :: 10 :: rest)).drop (s.length + 1 + 2) = rest := by
    have hre : 43 :: (s ++ 13 :: 10 :: rest) = (43 :: (s ++ [13, 10])) ++ rest := by simp
    rw [hre, drop_prefix_len _ _ _ (by simp <;> omega)]
  rw [hext2]

theorem simpleErrorParse_enc (s rest : List Nat) (hutf : isValidUtf8 s = true)
    (hfree : findCRLF s = none) :
    simpleErrorParse ((RType.simpleError s).asBytes ++ rest) = .ok (.simpleError s, rest) := by
  have hshape : (RType.simpleError s).asBytes ++ rest = 45 :: (s ++ 13 :: 10 :: rest) := by
    simp [RType.asBytes, CRLF]
  rw [hshape]
  have hlength : (45 :: (s ++ 13 :: 10 :: rest)).length = s.length + rest.length + 3 := by
    simp; omega
  simp only [simpleErrorParse]
  rw [show (rread (45 :: (s ++ 13 :: 10 :: rest))).first = .ok 45 from rfl]
  simp only [PRes.bind]
  rw [if_neg (by simp)]
  rw [show rread (45 :: (s ++ 13 :: 10 :: rest))
      = ⟨45 :: (s ++ 13 :: 10 :: rest), 0, (45 :: (s ++ 13 :: 10 :: rest)).length⟩ from rfl]
  rw [find_crlf_tag_digits 45 (by omega) s hfree rest]
  simp only [PRes.bind]
  rw [rslice_normal _ 1 (s.length + 1) (by omega) (by rw [hlength]; omega)
    (by rw [hlength]; omega)]
  have hext1 : ((45 :: (s ++ 13 :: 10 :: rest)).drop 1).take (s.length + 1 - 1) = s := by
    rw [List.drop_succ_cons, List.drop_zero, Nat.add_sub_cancel]
    exact take_prefix_len _ _ _ rfl
  rw [as_string_normal _ 1 (s.length + 1) (by omega) (by rw [hlength]; omega)
    (by rw [hext1]; exact hutf)]
  simp only [PRes.bind]
  rw [hext1]
  have hext2 : (45 :: (s ++ 13 :: 10 :: rest)).drop (s.length + 1 + 2) = rest := by
    have hre : 45 :: (s ++ 13 :: 10 :: rest) = (45 :: (s ++ [13, 10])) ++ rest := by simp
    rw [hre, drop_prefix_len _ _ _ (by simp <;> omega)]
  rw [hext2]

theorem integerParse_enc (i : Int) (rest : List Nat) (hlo : -(2 ^ 63) ≤ i) (hhi : i < 2 ^ 63) :
    integerParse ((RType.integer i).asBytes ++ rest) = .ok (.integer i, rest) := by
  have hshape : (RType.integer i).asBytes ++ rest = 58 :: (intToBytes i ++ 13 :: 10 :: rest) := by
    simp [RType.asBytes, CRLF]
  rw [hshape]
  have hlength : (58 :: (intToBytes i ++ 13 :: 10 :: rest)).length
      = (intToBytes i).length + rest.length + 3 := by
    simp; omega
  simp only [integerParse]
  rw [show (rread (58 :: (intToBytes i ++ 13 :: 10 :: rest))).first = .ok 58 from rfl]
  simp only [PRes.bind]
  rw [if_neg (by simp)]
  rw [show rread (58 :: (intToBytes i ++ 13 :: 10 :: rest))
      = ⟨58 :: (intToBytes i ++ 13 :: 10 :: rest), 0,
        (58 :: (intToBytes i ++ 13 :: 10 :: rest)).length⟩ from rfl]
  rw [find_crlf_tag_digits 58 (by omega) _ (intToBytes_crlfFree i) rest]
  simp only [PRes.bind]
  rw [rslice_normal _ 1 ((intToBytes i).length + 1) (by omega) (by rw [hlength]; omega)
    (by rw [hlength]; omega)]
  have hext1 : ((58 :: (intToBytes i ++ 13 :: 10 :: rest)).drop 1).take
      ((intToBytes i).length + 1 - 1) = intToBytes i := by
    rw [List.drop_succ_cons, List.drop_zero, Nat.add_sub_cancel]
    exact take_prefix_len _ _ _ rfl
  rw [parse_i64_normal _ 1 ((intToBytes i).length + 1) (by omega) (by rw [hlength]; omega) i
    (by rw [hext1]; exact intToBytes_ascii i)
    (by rw [hext1]; exact rustParseI64_intToBytes i hlo hhi)]
  simp only [PRes.bind]
  have hext2 : (58 :: (intToBytes i ++ 13 :: 10 :: rest)).drop ((intToBytes i).length + 1 + 2)
      = rest := by
    have hre : 58 :: (intToBytes i ++ 13 :: 10 :: rest)
        = (58 :: (intToBytes i ++ [13, 10])) ++ rest := by simp
    rw [hre, drop_prefix_len _ _ _ (by simp <;> omega)]
  rw [hext2]

theorem bigNumberParse_enc (i : Int) (rest : List Nat) (hlo : -(2 ^ 63) ≤ i) (hhi : i < 2 ^ 63) :
    bigNumberParse ((RType.bigNumber i).asBytes ++ rest) = .ok (.bigNumber i, rest) := by
  have hshape : (RType.bigNumber i).asBytes ++ rest
      = 40 :: (intToBytes i ++ 13 :: 10 :: rest) := by
    simp [RType.asBytes, CRLF]
  rw [hshape]
  have hlength : (40 :: (intToBytes i ++ 13 :: 10 :: rest)).length
      = (intToBytes i).length + rest.length + 3 := by
    simp; omega
  simp only [bigNumberParse]
  rw [show (rread (40 :: (intToBytes i ++ 13 :: 10 :: rest))).first = .ok 40 from rfl]
  simp only [PRes.bind]
  rw [if_neg (by simp)]
  rw [show rread (40 :: (intToBytes i ++ 13 :: 10 :: rest))
      = ⟨40 :: (intToBytes i ++ 13 :: 10 :: rest), 0,
        (40 :: (intToBytes i ++ 13 :: 10 :: rest)).length⟩ from rfl]
  rw [find_crlf_tag_digits 40 (by omega) _ (intToBytes_crlfFree i) rest]
  simp only [PRes.bind]
  rw [rslice_normal _ 1 ((intToBytes i).length + 1) (by omega) (by rw [hlength]; omega)
    (by rw [hlength]; omega)]
  have hext1 : ((40 :: (intToBytes i ++ 13 :: 10 :: rest)).drop 1).take
      ((intToBytes i).length + 1 - 1) = intToBytes i := by
    rw [List.drop_succ_cons, List.drop_zero, Nat.add_sub_cancel]
    exact take_prefix_len _ _ _ rfl
  rw [parse_i64_normal _ 1 ((intToBytes i).length + 1) (by omega) (by rw [hlength]; omega) i
    (by rw [hext1]; exact intToBytes_ascii i)
    (by rw [hext1]; exact rustParseI64_intToBytes i hlo hhi)]
  simp only [PRes.bind]
  have hext2 : (40 :: (intToBytes i ++ 13 :: 10 :: rest)).drop ((intToBytes i).length + 1 + 2)
      = rest := by
    have hre : 40 :: (intToBytes i ++ 13 :: 10 :: rest)
        = (40 :: (intToBytes i ++ [13, 10])) ++ rest := by simp
    rw [hre, drop_prefix_len _ _ _ (by simp <;> omega)]
  rw [hext2]

theorem nullParse_enc (rest : List Nat) :
    nullParse (RType.null.asBytes ++ rest) = .ok (.null, rest) := by
  have hshape : RType.null.asBytes ++ rest = 95 :: ([] ++ 13 :: 10 :: rest) := by
    simp [RType.asBytes]
  rw [hshape]
  simp only [nullParse]
  rw [show (rread (95 :: ([] ++ 13 :: 10 :: rest))).first = .ok 95 from rfl]
  simp only [PRes.bind]
  rw [if_neg (by simp)]
  rw [show rread (95 :: ([] ++ 13 :: 10 :: rest))
      = ⟨95 :: ([] ++ 13 :: 10 :: rest), 0, (95 :: ([] ++ 13 :: 10 :: rest)).length⟩ from rfl]
  rw [find_crlf_tag_digits 95 (by omega) [] rfl rest]
  simp only [PRes.bind, List.length_nil]
  rw [if_neg (by omega)]
  rfl

theorem booleanParse_enc (b : Bool) (rest : List Nat) :
    booleanParse ((RType.boolean b).asBytes ++ rest) = .ok (.boolean b, rest) := by
  cases b with
  | true =>
    have hshape : (RType.boolean true).asBytes ++ rest
        = 35 :: ([116, 114, 117, 101] ++ 13 :: 10 :: rest) := by
      simp [RType.asBytes, CRLF, strBytes]
    rw [hshape]
    simp only [booleanParse]
    rw [if_neg (by simp)]
    rw [show (rread (35 :: ([116, 114, 117, 101] ++ 13 :: 10 :: rest))).first = .ok 35 from rfl]
    simp only [PRes.bind]
    rw [if_neg (by simp)]
    rw [show (rread (35 :: ([116, 114, 117, 101] ++ 13 :: 10 :: rest))).find_crlf
        = .ok (5, 7) from rfl]
    simp only [PRes.bind]
    rw [show ((35 :: ([116, 114, 117, 101] ++ 13 :: 10 :: rest)).get? 1) = some 116 from rfl]
    rfl
  | false =>
    have hshape : (RType.boolean false).asBytes ++ rest
        = 35 :: ([102, 97, 108, 115, 101] ++ 13 :: 10 :: rest) := by
      simp [RType.asBytes, CRLF, strBytes]
    rw [hshape]
    simp only [booleanParse]
    rw [if_neg (by simp)]
    rw [show (rread (35 :: ([102, 97, 108, 115, 101] ++ 13 :: 10 :: rest))).first
        = .ok 35 from rfl]
    simp only [PRes.bind]
    rw [if_neg (by simp)]
    rw [show (rread (35 :: ([102, 97, 108, 115, 101] ++ 13 :: 10 :: rest))).find_crlf
        = .ok (6, 8) from rfl]
    simp only [PRes.bind]
    rw [show ((35 :: ([102, 97, 108, 115, 101] ++ 13 :: 10 :: rest)).get? 1)
        = some 102 from rfl]
    rfl

theorem findWindow_single (b : Nat) (l tail : List Nat) (hl : ∀ x ∈ l, x ≠ b) :
    findWindow [b] (l ++ b :: tail) = some l.length := by
  induction l with
  | nil =>
    simp only [List.nil_append, findWindow]
    rw [if_pos (by simp [listStartsWith])]
    rfl
  | cons x t ih =>
    have hx : x ≠ b := hl x (List.mem_cons_self x t)
    rw [List.cons_append, findWindow]
    rw [if_neg (by simp [listStartsWith]; omega)]
    rw [ih fun y hy => hl y (List.mem_cons_of_mem x hy)]
    simp

theorem split_found (L : List Nat) (a b : Nat) (pat : List Nat) (pos : Nat)
    (hfind : findWindow pat ((L.drop a).take (b - a)) = some pos) :
    BytesReader.split ⟨L, a, b⟩ pat
      = .ok (rread ((L.drop a).take pos), rread (((L.drop a).drop pos).drop pat.length)) := by
  simp only [BytesReader.split]
  rw [hfind]

theorem verbatimStringParse_enc (enc data rest : List Nat)
    (henc3 : enc.length = 3) (hcolon : ∀ x ∈ enc, x ≠ 58)
    (hutf_enc : isValidUtf8 enc = true) (hutf_data : isValidUtf8 data = true)
    (hd4 : 4 ≤ data.length) (hdlen : data.length < 2 ^ 63) :
    verbatimStringParse ((RType.verbatimString enc data).asBytes ++ rest)
      = .ok (.verbatimString enc data, rest) := by
  have hdl1 : 1 ≤ (natToBytes data.length).length :=
    List.length_pos.mpr (natToBytes_ne_nil data.length)
  have hdl20 : (natToBytes data.length).length ≤ 20 :=
    natToBytes_len_le20 data.length (by omega)
  have hshape : (RType.verbatimString enc data).asBytes ++ rest
      = 61 :: (natToBytes data.length ++ 13 :: 10 :: (enc ++ 58 :: (data ++ 13 :: 10 :: rest))) := by
    simp [RType.asBytes, CRLF]
  rw [hshape]
  have hlength : (61 :: (natToBytes data.length ++ 13 :: 10 ::
      (enc ++ 58 :: (data ++ 13 :: 10 :: rest)))).length
      = (natToBytes data.length).length + data.length + rest.length + 9 := by
    simp [henc3]
    omega
  simp only [verbatimStringParse]
  rw [show (rread (61 :: (natToBytes data.length ++ 13 :: 10 ::
      (enc ++ 58 :: (data ++ 13 :: 10 :: rest))))).first = .ok 61 from rfl]
  simp only [PRes.bind]
  rw [if_neg (by simp)]
  rw [show rread (61 :: (natToBytes data.length ++ 13 :: 10 ::
        (enc ++ 58 :: (data ++ 13 :: 10 :: rest))))
      = ⟨61 :: (natToBytes data.length ++ 13 :: 10 :: (enc ++ 58 :: (data ++ 13 :: 10 :: rest))),
        0, (61 :: (natToBytes data.length ++ 13 :: 10 ::
          (enc ++ 58 :: (data ++ 13 :: 10 :: rest)))).length⟩ from rfl]
  rw [find_crlf_tag_digits 61 (by omega) _ (natToBytes_crlfFree data.length) _]
  simp only [PRes.bind]
  rw [rslice_normal _ 1 ((natToBytes data.length).length + 1) (by omega)
    (by rw [hlength]; omega) (by rw [hlength]; omega)]
  have hext1 : ((61 :: (natToBytes data.length ++ 13 :: 10 ::
      (enc ++ 58 :: (data ++ 13 :: 10 :: rest)))).drop 1).take
      ((natToBytes data.length).length + 1 - 1) = natToBytes data.length := by
    rw [List.drop_succ_cons, List.drop_zero, Nat.add_sub_cancel]
    exact take_prefix_len _ _ _ rfl
  rw [parse_i64_normal _ 1 ((natToBytes data.length).length + 1) (by omega)
    (by rw [hlength]; omega) (data.length : Int)
    (by rw [hext1]; exact natToBytes_ascii data.length)
    (by rw [hext1]; exact rustParseI64_natToBytes data.length hdlen)]
  simp only [PRes.bind]
  rw [show (((data.length : Int)) % (2 ^ 64 : Int)).toNat = data.length from
    intCast_mod_toNat data.length (by omega)]
  rw [if_neg (by simp [CRLF]; omega)]
  rw [if_neg (by rw [hlength]; simp [CRLF]; omega)]
  rw [rslice_normal _ ((natToBytes data.length).length + 1 + 2)
    ((natToBytes data.length).length + 1 + 2 + data.length) (by omega)
    (by rw [hlength]; omega) (by rw [hlength]; omega)]
  have hsuffix : (61 :: (natToBytes data.length ++ 13 :: 10 ::
      (enc ++ 58 :: (data ++ 13 :: 10 :: rest)))).drop
      ((natToBytes data.length).length + 1 + 2) = enc ++ 58 :: (data ++ 13 :: 10 :: rest) := by
    have hre : 61 :: (natToBytes data.length ++ 13 :: 10 ::
        (enc ++ 58 :: (data ++ 13 :: 10 :: rest)))
        = (61 :: (natToBytes data.length ++ [13, 10])) ++ (enc ++ 58 :: (data ++ 13 :: 10 :: rest)) := by
      simp
    rw [hre, drop_prefix_len _ _ _ (by simp <;> omega)]
  have hwindow : ((61 :: (natToBytes data.length ++ 13 :: 10 ::
      (enc ++ 58 :: (data ++ 13 :: 10 :: rest)))).drop
      ((natToBytes data.length).length + 1 + 2)).take
      ((natToBytes data.length).length + 1 + 2 + data.length
        - ((natToBytes data.length).length + 1 + 2))
      = enc ++ 58 :: (data.take (data.length - 4)) := by
    rw [hsuffix, Nat.add_sub_cancel_left]
    rw [List.take_append_eq_append_take, List.take_of_length_le (by omega)]
    congr 1
    rw [henc3]
    have h1 : data.length - 3 = (data.length - 4) + 1 := by omega
    rw [h1, List.take_succ_cons]
    congr 1
    rw [List.take_append_eq_append_take]
    rw [show data.length - 4 - data.length = 0 from by omega, List.take_zero, List.append_nil]
  have hfind : findWindow [58] (((61 :: (natToBytes data.length ++ 13 :: 10 ::
      (enc ++ 58 :: (data ++ 13 :: 10 :: rest)))).drop
      ((natToBytes data.length).length + 1 + 2)).take
      ((natToBytes data.length).length + 1 + 2 + data.length
        - ((natToBytes data.length).length + 1 + 2))) = some 3 := by
    rw [hwindow, findWindow_single 58 enc _ hcolon, henc3]
  rw [split_found _ _ _ _ 3 hfind]
  simp only [PRes.bind, List.length_cons, List.length_nil]
  have htake3 : (enc ++ 58 :: (data ++ 13 :: 10 :: rest)).take 3 = enc :=
    take_prefix_len _ _ _ henc3.symm
  have hdrop31 : ((enc ++ 58 :: (data ++ 13 :: 10 :: rest)).drop 3).drop 1
      = data ++ 13 :: 10 :: rest := by
    rw [drop_prefix_len _ _ _ henc3.symm, List.drop_succ_cons, List.drop_zero]
  rw [hsuffix, htake3, hdrop31]
  rw [show rread (data ++ 13 :: 10 :: rest)
      = ⟨data ++ 13 :: 10 :: rest, 0, (data ++ 13 :: 10 :: rest).length⟩ from rfl]
  rw [rslice_normal _ 0 data.length (by omega) (by simp <;> omega) (by simp <;> omega)]
  rw [show rread enc = ⟨enc, 0, enc.length⟩ from rfl]
  rw [as_string_normal enc 0 enc.length (by omega) (by omega)
    (by rw [List.drop_zero, Nat.sub_zero, List.take_length]; exact hutf_enc)]
  simp only [PRes.bind]
  rw [List.drop_zero, Nat.sub_zero, List.take_length]
  have hextd : ((data ++ 13 :: 10 :: rest).drop 0).take (data.length - 0) = data := by
    rw [List.drop_zero, Nat.sub_zero]
    exact take_prefix_len _ _ _ rfl
  rw [as_string_normal (data ++ 13 :: 10 :: rest) 0 data.length (by omega) (by simp <;> omega)
    (by rw [hextd]; exact hutf_data)]
  simp only [PRes.bind]
  rw [hextd]
  have hfinal : (61 :: (natToBytes data.length ++ 13 :: 10 ::
      (enc ++ 58 :: (data ++ 13 :: 10 :: rest)))).drop
      ((natToBytes data.length).length + 1 + 2 + 3 + 1 + data.length + CRLF.length) = rest := by
    have hre : 61 :: (natToBytes data.length ++ 13 :: 10 ::
        (enc ++ 58 :: (data ++ 13 :: 10 :: rest)))
        = (61 :: (natToBytes data.length ++ 13 :: 10 :: (enc ++ 58 :: (data ++ [13, 10])))) ++ rest := by
      simp
    rw [hre, drop_prefix_len _ _ _ (by simp [CRLF, henc3] <;> omega)]
  rw [hfinal]

theorem bulkStringParse_rdb (payload rest : List Nat)
    (hred : listStartsWith (strBytes "REDIS0011") payload = true)
    (hlen : payload.length < 2 ^ 63) (hrest : 2 ≤ rest.length) :
    bulkStringParse (36 :: (natToBytes payload.length ++ 13 :: 10 :: (payload ++ rest)))
      = .ok (.rdbFile payload, rest.drop 2) := by
  have hdl1 : 1 ≤ (natToBytes payload.length).length :=
    List.length_pos.mpr (natToBytes_ne_nil payload.length)
  have hdl20 : (natToBytes payload.length).length ≤ 20 :=
    natToBytes_len_le20 payload.length (by omega)
  have hlength : (36 :: (natToBytes payload.length ++ 13 :: 10 :: (payload ++ rest))).length
      = (natToBytes payload.length).length + payload.length + rest.length + 3 := by
    simp; omega
  simp only [bulkStringParse]
  rw [if_neg (by rw [hlength]; omega)]
  rw [show (rread (36 :: (natToBytes payload.length ++ 13 :: 10 :: (payload ++ rest)))).first
      = .ok 36 from rfl]
  simp only [PRes.bind]
  rw [if_neg (by simp)]
  rw [show rread (36 :: (natToBytes payload.length ++ 13 :: 10 :: (payload ++ rest)))
      = ⟨36 :: (natToBytes payload.length ++ 13 :: 10 :: (payload ++ rest)), 0,
        (36 :: (natToBytes payload.length ++ 13 :: 10 :: (payload ++ rest))).length⟩ from rfl]
  rw [find_crlf_tag_digits 36 (by omega) _ (natToBytes_crlfFree payload.length) _]
  simp only [PRes.bind]
  rw [rslice_normal _ 1 ((natToBytes payload.length).length + 1) (by omega)
    (by rw [hlength]; omega) (by rw [hlength]; omega)]
  have hext1 : ((36 :: (natToBytes payload.length ++ 13 :: 10 :: (payload ++ rest))).drop 1).take
      ((natToBytes payload.length).length + 1 - 1) = natToBytes payload.length := by
    rw [List.drop_succ_cons, List.drop_zero, Nat.add_sub_cancel]
    exact take_prefix_len _ _ _ rfl
  rw [parse_i64_normal _ 1 ((natToBytes payload.length).length + 1) (by omega)
    (by rw [hlength]; omega) (payload.length : Int)
    (by rw [hext1]; exact natToBytes_ascii payload.length)
    (by rw [hext1]; exact rustParseI64_natToBytes payload.length hlen)]
  simp only [PRes.bind]
  rw [if_neg (by omega)]
  rw [show (((payload.length : Int)) % (2 ^ 64 : Int)).toNat = payload.length from
    intCast_mod_toNat payload.length (by omega)]
  rw [if_neg (by omega), if_neg (by rw [hlength]; omega)]
  rw [rslice_normal _ ((natToBytes payload.length).length + 1 + 2)
    ((natToBytes payload.length).length + 1 + 2 + payload.length) (by omega)
    (by rw [hlength]; omega) (by rw [hlength]; omega)]
  rw [as_bytes_normal _ _ _ (by omega) (by rw [hlength]; omega)]
  simp only [PRes.bind]
  have hext2 : ((36 :: (natToBytes payload.length ++ 13 :: 10 :: (payload ++ rest))).drop
      ((natToBytes payload.length).length + 1 + 2)).take
      ((natToBytes payload.length).length + 1 + 2 + payload.length
        - ((natToBytes payload.length).length + 1 + 2)) = payload := by
    rw [Nat.add_sub_cancel_left]
    have hre : 36 :: (natToBytes payload.length ++ 13 :: 10 :: (payload ++ rest))
        = (36 :: (natToBytes payload.length ++ [13, 10])) ++ (payload ++ rest) := by
      simp
    rw [hre, drop_prefix_len _ _ _ (by simp <;> omega)]
    exact take_prefix_len _ _ _ rfl
  rw [hext2, hred, if_pos rfl]
  rw [if_pos (by rw [hlength]; simp [CRLF]; omega)]
  have hext3 : (36 :: (natToBytes payload.length ++ 13 :: 10 :: (payload ++ rest))).drop
      ((natToBytes payload.length).length + 1 + 2 + payload.length + CRLF.length)
      = rest.drop 2 := by
    have hre : 36 :: (natToBytes payload.length ++ 13 :: 10 :: (payload ++ rest))
        = (36 :: (natToBytes payload.length ++ 13 :: 10 :: payload)) ++ rest := by
      simp
    have hplen : (natToBytes payload.length).length + 1 + 2 + payload.length + CRLF.length
        = (36 :: (natToBytes payload.length ++ 13 :: 10 :: payload)).length + 2 := by
      simp [CRLF]; omega
    rw [hre, hplen, List.drop_append]
  rw [hext3]

theorem bulkStringParse_atEnd_crash (payload : List Nat) (hne : 1 ≤ payload.length)
    (hutf : isValidUtf8 payload = true) (hlen : payload.length < 2 ^ 63) :
    bulkStringParse (36 :: (natToBytes payload.length ++ 13 :: 10 :: payload)) = .crash := by
  have hdl1 : 1 ≤ (natToBytes payload.length).length :=
    List.length_pos.mpr (natToBytes_ne_nil payload.length)
  have hdl20 : (natToBytes payload.length).length ≤ 20 :=
    natToBytes_len_le20 payload.length (by omega)
  have hlength : (36 :: (natToBytes payload.length ++ 13 :: 10 :: payload)).length
      = (natToBytes payload.length).length + payload.length + 3 := by
    simp; omega
  simp only [bulkStringParse]
  rw [if_neg (by rw [hlength]; omega)]
  rw [show (rread (36 :: (natToBytes payload.length ++ 13 :: 10 :: payload))).first
      = .ok 36 from rfl]
  simp only [PRes.bind]
  rw [if_neg (by simp)]
  rw [show rread (36 :: (natToBytes payload.length ++ 13 :: 10 :: payload))
      = ⟨36 :: (natToBytes payload.length ++ 13 :: 10 :: payload), 0,
        (36 :: (natToBytes payload.length ++ 13 :: 10 :: payload)).length⟩ from rfl]
  rw [find_crlf_tag_digits 36 (by omega) _ (natToBytes_crlfFree payload.length) _]
  simp only [PRes.bind]
  rw [rslice_normal _ 1 ((natToBytes payload.length).length + 1) (by omega)
    (by rw [hlength]; omega) (by rw [hlength]; omega)]
  have hext1 : ((36 :: (natToBytes payload.length ++ 13 :: 10 :: payload)).drop 1).take
      ((natToBytes payload.length).length + 1 - 1) = natToBytes payload.length := by
    rw [List.drop_succ_cons, List.drop_zero, Nat.add_sub_cancel]
    exact take_prefix_len _ _ _ rfl
  rw [parse_i64_normal _ 1 ((natToBytes payload.length).length + 1) (by omega)
    (by rw [hlength]; omega) (payload.length : Int)
    (by rw [hext1]; exact natToBytes_ascii payload.length)
    (by rw [hext1]; exact rustParseI64_natToBytes payload.length hlen)]
  simp only [PRes.bind]
  rw [if_neg (by omega)]
  rw [show (((payload.length : Int)) % (2 ^ 64 : Int)).toNat = payload.length from
    intCast_mod_toNat payload.length (by omega)]
  rw [if_neg (by omega), if_neg (by rw [hlength]; omega)]
  rw [rslice_normal _ ((natToBytes payload.length).length + 1 + 2)
    ((natToBytes payload.length).length + 1 + 2 + payload.length) (by omega)
    (by rw [hlength]; omega) (by rw [hlength]; omega)]
  rw [as_bytes_normal _ _ _ (by omega) (by rw [hlength]; omega)]
  simp only [PRes.bind]
  have hext2 : ((36 :: (natToBytes payload.length ++ 13 :: 10 :: payload)).drop
      ((natToBytes payload.length).length + 1 + 2)).take
      ((natToBytes payload.length).length + 1 + 2 + payload.length
        - ((natToBytes payload.length).length + 1 + 2)) = payload := by
    rw [Nat.add_sub_cancel_left]
    have hre : 36 :: (natToBytes payload.length ++ 13 :: 10 :: payload)
        = (36 :: (natToBytes payload.length ++ [13, 10])) ++ payload := by
      simp
    rw [hre, drop_prefix_len _ _ _ (by simp <;> omega)]
    exact List.take_length ..
  rw [hext2]
  by_cases hred : listStartsWith (strBytes "REDIS0011") payload = true
  · rw [hred, if_pos rfl]
    rw [if_neg (by rw [hlength]; simp [CRLF]; omega)]
  · rw [Bool.not_eq_true] at hred
    rw [hred]
    rw [if_neg (by simp), hutf, if_pos rfl]
    rw [if_neg (by rw [hlength]; simp [CRLF]; omega)]

theorem mapInsert_absent (acc : List (RType × RType)) (k v : RType)
    (h : ∀ p ∈ acc, RType.beq p.1 k = false) :
    mapInsert acc k v = acc ++ [(k, v)] := by
  induction acc with
  | nil => rfl
  | cons p rest ih =>
    obtain ⟨k0, v0⟩ := p
    rw [mapInsert]
    rw [if_neg (by simp [h (k0, v0) (List.mem_cons_self ..)])]
    rw [ih fun q hq => h q (List.mem_cons_of_mem _ hq)]
    rfl

theorem parseElemsF_enc (rec : List Nat → PRes (RType × List Nat)) (xs : List RType)
    (rest : List Nat) (hrec : ∀ x ∈ xs, ∀ r, rec (x.asBytes ++ r) = .ok (x, r)) :
    parseElemsF rec xs.length (RType.asBytesList xs ++ rest) = .ok (xs, rest) := by
  induction xs generalizing rest with
  | nil => simp [parseElemsF, RType.asBytesList]
  | cons x t ih =>
    rw [show (x :: t).length = t.length + 1 from rfl]
    rw [show RType.asBytesList (x :: t) ++ rest
        = x.asBytes ++ (RType.asBytesList t ++ rest) from by simp [RType.asBytesList]]
    rw [parseElemsF]
    rw [hrec x (List.mem_cons_self ..) _]
    simp only [PRes.bind]
    rw [ih _ fun y hy r => hrec y (List.mem_cons_of_mem x hy) r]
    rfl

theorem parsePairsF_enc (rec : List Nat → PRes (RType × List Nat))
    (ps : List (RType × RType)) (rest : List Nat) (acc : List (RType × RType))
    (hrec : ∀ p ∈ ps, (∀ r, rec (p.1.asBytes ++ r) = .ok (p.1, r)) ∧
      (∀ r, rec (p.2.asBytes ++ r) = .ok (p.2, r)))
    (hacc : ∀ pe ∈ acc, keyFresh pe.1 ps = true)
    (hdist : keysDistinct ps = true) :
    parsePairsF rec ps.length (RType.asBytesPairs ps ++ rest) acc = .ok (acc ++ ps, rest) := by
  induction ps generalizing rest acc with
  | nil => simp [parsePairsF, RType.asBytesPairs]
  | cons p t ih =>
    obtain ⟨k, v⟩ := p
    rw [show ((k, v) :: t).length = t.length + 1 from rfl]
    rw [show RType.asBytesPairs ((k, v) :: t) ++ rest
        = k.asBytes ++ (v.asBytes ++ (RType.asBytesPairs t ++ rest)) from by
      simp [RType.asBytesPairs]]
    rw [parsePairsF]
    rw [(hrec (k, v) (List.mem_cons_self ..)).1 _]
    simp only [PRes.bind]
    rw [(hrec (k, v) (List.mem_cons_self ..)).2 _]
    simp only [PRes.bind]
    have hins : mapInsert acc k v = acc ++ [(k, v)] := by
      apply mapInsert_absent
      intro p hp
      have := hacc p hp
      rw [keyFresh] at this
      simp only [Bool.and_eq_true, Bool.not_eq_true'] at this
      exact this.1
    rw [hins]
    have hdt : keysDistinct t = true := by
      rw [keysDistinct] at hdist
      simp only [Bool.and_eq_true] at hdist
      exact hdist.2
    have hkf : keyFresh k t = true := by
      rw [keysDistinct] at hdist
      simp only [Bool.and_eq_true] at hdist
      exact hdist.1
    have hacc2 : ∀ pe ∈ acc ++ [(k, v)], keyFresh pe.1 t = true := by
      intro pe hpe
      rcases List.mem_append.mp hpe with h | h
      · have := hacc pe h
        rw [keyFresh] at this
        simp only [Bool.and_eq_true] at this
        exact this.2
      · simp at h
        subst h
        exact hkf
    rw [ih _ _ (fun q hq => hrec q (List.mem_cons_of_mem _ hq)) hacc2 hdt]
    simp

theorem arrayParse_enc (rec : List Nat → PRes (RType × List Nat)) (xs : List RType)
    (rest : List Nat) (hxslen : xs.length < 2 ^ 63)
    (hrec : ∀ x ∈ xs, ∀ r, rec (x.asBytes ++ r) = .ok (x, r)) :
    arrayParse rec ((RType.array xs).asBytes ++ rest) = .ok (.array xs, rest) := by
  have hdl1 : 1 ≤ (natToBytes xs.length).length :=
    List.length_pos.mpr (natToBytes_ne_nil xs.length)
  have hdl20 : (natToBytes xs.length).length ≤ 20 :=
    natToBytes_len_le20 xs.length (by omega)
  have hshape : (RType.array xs).asBytes ++ rest
      = 42 :: (natToBytes xs.length ++ 13 :: 10 :: (RType.asBytesList xs ++ rest)) := by
    simp [RType.asBytes, CRLF]
  rw [hshape]
  have hlength : (42 :: (natToBytes xs.length ++ 13 :: 10 ::
      (RType.asBytesList xs ++ rest))).length
      = (natToBytes xs.length).length + (RType.asBytesList xs).length + rest.length + 3 := by
    simp; omega
  simp only [arrayParse]
  rw [if_neg (by rw [hlength]; omega)]
  rw [show (rread (42 :: (natToBytes xs.length ++ 13 :: 10 ::
      (RType.asBytesList xs ++ rest)))).first = .ok 42 from rfl]
  simp only [PRes.bind]
  rw [if_neg (by simp)]
  rw [show rread (42 :: (natToBytes xs.length ++ 13 :: 10 :: (RType.asBytesList xs ++ rest)))
      = ⟨42 :: (natToBytes xs.length ++ 13 :: 10 :: (RType.asBytesList xs ++ rest)), 0,
        (42 :: (natToBytes xs.length ++ 13 :: 10 ::
          (RType.asBytesList xs ++ rest))).length⟩ from rfl]
  rw [find_crlf_tag_digits 42 (by omega) _ (natToBytes_crlfFree xs.length) _]
  simp only [PRes.bind]
  rw [rslice_normal _ 1 ((natToBytes xs.length).length + 1) (by omega)
    (by rw [hlength]; omega) (by rw [hlength]; omega)]
  have hext1 : ((42 :: (natToBytes xs.length ++ 13 :: 10 ::
      (RType.asBytesList xs ++ rest))).drop 1).take
      ((natToBytes xs.length).length + 1 - 1) = natToBytes xs.length := by
    rw [List.drop_succ_cons, List.drop_zero, Nat.add_sub_cancel]
    exact take_prefix_len _ _ _ rfl
  rw [parse_i64_normal _ 1 ((natToBytes xs.length).length + 1) (by omega)
    (by rw [hlength]; omega) (xs.length : Int)
    (by rw [hext1]; exact natToBytes_ascii xs.length)
    (by rw [hext1]; exact rustParseI64_natToBytes xs.length hxslen)]
  simp only [PRes.bind]
  rw [if_neg (by omega)]
  have hdropds : (42 :: (natToBytes xs.length ++ 13 :: 10 ::
      (RType.asBytesList xs ++ rest))).drop ((natToBytes xs.length).length + 1 + 2)
      = RType.asBytesList xs ++ rest := by
    have hre : 42 :: (natToBytes xs.length ++ 13 :: 10 :: (RType.asBytesList xs ++ rest))
        = (42 :: (natToBytes xs.length ++ [13, 10])) ++ (RType.asBytesList xs ++ rest) := by
      simp
    rw [hre, drop_prefix_len _ _ _ (by simp <;> omega)]
  cases xs with
  | nil => rfl
  | cons y t =>
    rw [if_neg (by push_cast [List.length_cons]; omega)]
    rw [hdropds]
    rw [show ((((y :: t).length : Nat) : Int)).toNat = (y :: t).length from
      Int.toNat_natCast _]
    rw [parseElemsF_enc rec (y :: t) rest hrec]
    rfl

theorem mapParse_enc (rec : List Nat → PRes (RType × List Nat))
    (ps : List (RType × RType)) (rest : List Nat) (hpslen : ps.length < 2 ^ 63)
    (hdist : keysDistinct ps = true)
    (hrec : ∀ p ∈ ps, (∀ r, rec (p.1.asBytes ++ r) = .ok (p.1, r)) ∧
      (∀ r, rec (p.2.asBytes ++ r) = .ok (p.2, r))) :
    mapParse rec ((RType.map ps).asBytes ++ rest) = .ok (.map ps, rest) := by
  have hdl1 : 1 ≤ (natToBytes ps.length).length :=
    List.length_pos.mpr (natToBytes_ne_nil ps.length)
  have hdl20 : (natToBytes ps.length).length ≤ 20 :=
    natToBytes_len_le20 ps.length (by omega)
  have hshape : (RType.map ps).asBytes ++ rest
      = 37 :: (natToBytes ps.length ++ 13 :: 10 :: (RType.asBytesPairs ps ++ rest)) := by
    simp [RType.asBytes, CRLF]
  rw [hshape]
  have hlength : (37 :: (natToBytes ps.length ++ 13 :: 10 ::
      (RType.asBytesPairs ps ++ rest))).length
      = (natToBytes ps.length).length + (RType.asBytesPairs ps).length + rest.length + 3 := by
    simp; omega
  simp only [mapParse]
  rw [show (rread (37 :: (natToBytes ps.length ++ 13 :: 10 ::
      (RType.asBytesPairs ps ++ rest)))).first = .ok 37 from rfl]
  simp only [PRes.bind]
  rw [if_neg (by simp)]
  rw [show rread (37 :: (natToBytes ps.length ++ 13 :: 10 :: (RType.asBytesPairs ps ++ rest)))
      = ⟨37 :: (natToBytes ps.length ++ 13 :: 10 :: (RType.asBytesPairs ps ++ rest)), 0,
        (37 :: (natToBytes ps.length ++ 13 :: 10 ::
          (RType.asBytesPairs ps ++ rest))).length⟩ from rfl]
  rw [find_crlf_tag_digits 37 (by omega) _ (natToBytes_crlfFree ps.length) _]
  simp only [PRes.bind]
  rw [rslice_normal _ 1 ((natToBytes ps.length).length + 1) (by omega)
    (by rw [hlength]; omega) (by rw [hlength]; omega)]
  have hext1 : ((37 :: (natToBytes ps.length ++ 13 :: 10 ::
      (RType.asBytesPairs ps ++ rest))).drop 1).take
      ((natToBytes ps.length).length + 1 - 1) = natToBytes ps.length := by
    rw [List.drop_succ_cons, List.drop_zero, Nat.add_sub_cancel]
    exact take_prefix_len _ _ _ rfl
  rw [parse_i64_normal _ 1 ((natToBytes ps.length).length + 1) (by omega)
    (by rw [hlength]; omega) (ps.length : Int)
    (by rw [hext1]; exact natToBytes_ascii ps.length)
    (by rw [hext1]; exact rustParseI64_natToBytes ps.length hpslen)]
  simp only [PRes.bind]
  rw [if_neg (by omega)]
  have hdropds : (37 :: (natToBytes ps.length ++ 13 :: 10 ::
      (RType.asBytesPairs ps ++ rest))).drop ((natToBytes ps.length).length + 1 + 2)
      = RType.asBytesPairs ps ++ rest := by
    have hre : 37 :: (natToBytes ps.length ++ 13 :: 10 :: (RType.asBytesPairs ps ++ rest))
        = (37 :: (natToBytes ps.length ++ [13, 10])) ++ (RType.asBytesPairs ps ++ rest) := by
      simp
    rw [hre, drop_prefix_len _ _ _ (by simp <;> omega)]
  cases ps with
  | nil => rfl
  | cons q t =>
    rw [if_neg (by push_cast [List.length_cons]; omega)]
    rw [hdropds]
    rw [show ((((q :: t).length : Nat) : Int)).toNat = (q :: t).length from
      Int.toNat_natCast _]
    rw [parsePairsF_enc rec (q :: t) rest [] hrec (by intro pe hpe; simp at hpe) hdist]
    rfl

theorem setParse_enc (rec : List Nat → PRes (RType × List Nat)) (rest : List Nat) :
    setParse rec ((RType.rset []).asBytes ++ rest) = .ok (.rset [], rest) := by
  have hshape : (RType.rset []).asBytes ++ rest = 126 :: 48 :: 13 :: 10 :: rest := by
    simp [RType.asBytes, CRLF, RType.asBytesList]
    rfl
  rw [hshape]
  rfl

theorem wfList_mem (xs : List RType) (h : wfList xs = true) :
    ∀ x ∈ xs, wfRT x = true := by
  induction xs with
  | nil => intro x hx; simp at hx
  | cons y t ih =>
    rw [wfList] at h
    simp only [Bool.and_eq_true] at h
    intro x hx
    rcases List.mem_cons.mp hx with h1 | h1
    · subst h1; exact h.1
    · exact ih h.2 x h1

theorem depthList_mem (xs : List RType) : ∀ x ∈ xs, depthRT x ≤ depthList xs := by
  induction xs with
  | nil => intro x hx; simp at hx
  | cons y t ih =>
    intro x hx
    rw [depthList]
    rcases List.mem_cons.mp hx with h1 | h1
    · subst h1; exact Nat.le_max_left _ _
    · exact le_trans (ih x h1) (Nat.le_max_right _ _)

theorem wfPairs_mem (ps : List (RType × RType)) (h : wfPairs ps = true) :
    ∀ p ∈ ps, wfRT p.1 = true ∧ wfRT p.2 = true := by
  induction ps with
  | nil => intro p hp; simp at hp
  | cons q t ih =>
    obtain ⟨k, v⟩ := q
    rw [wfPairs] at h
    simp only [Bool.and_eq_true] at h
    intro p hp
    rcases List.mem_cons.mp hp with h1 | h1
    · subst h1; exact ⟨h.1.1, h.1.2⟩
    · exact ih h.2 p h1

theorem depthPairs_mem (ps : List (RType × RType)) :
    ∀ p ∈ ps, depthRT p.1 ≤ depthPairs ps ∧ depthRT p.2 ≤ depthPairs ps := by
  induction ps with
  | nil => intro p hp; simp at hp
  | cons q t ih =>
    obtain ⟨k, v⟩ := q
    intro p hp
    rw [depthPairs]
    rcases List.mem_cons.mp hp with h1 | h1
    · subst h1
      exact ⟨le_trans (Nat.le_max_left _ _) (Nat.le_max_left _ _),
        le_trans (Nat.le_max_right _ _) (Nat.le_max_left _ _)⟩
    · exact ⟨le_trans (ih p h1).1 (Nat.le_max_right _ _),
        le_trans (ih p h1).2 (Nat.le_max_right _ _)⟩

theorem parseOne_enc (fuel : Nat) : ∀ (v : RType) (rest : List Nat),
    wfRT v = true → depthRT v < fuel →
    parseOne fuel (RType.asBytes v ++ rest) = .ok (v, rest) := by
  induction fuel with
  | zero => intro v rest _ hd; omega
  | succ f ih =>
    intro v rest hwf hd
    rw [parseOne]
    cases v with
    | simpleString s =>
      simp only [wfRT, Bool.and_eq_true] at hwf
      have h1 : parseOneF (parseOne f) (RType.asBytes (.simpleString s) ++ rest)
          = simpleStringParse (RType.asBytes (.simpleString s) ++ rest) := by
        simp [parseOneF, RType.asBytes]
      rw [h1]
      exact simpleStringParse_enc s rest hwf.1 (Option.isNone_iff_eq_none.mp hwf.2)
    | simpleError s =>
      simp only [wfRT, Bool.and_eq_true] at hwf
      have h1 : parseOneF (parseOne f) (RType.asBytes (.simpleError s) ++ rest)
          = simpleErrorParse (RType.asBytes (.simpleError s) ++ rest) := by
        simp [parseOneF, RType.asBytes]
      rw [h1]
      exact simpleErrorParse_enc s rest hwf.1 (Option.isNone_iff_eq_none.mp hwf.2)
    | integer i =>
      simp only [wfRT, decide_eq_true_eq] at hwf
      have h1 : parseOneF (parseOne f) (RType.asBytes (.integer i) ++ rest)
          = integerParse (RType.asBytes (.integer i) ++ rest) := by
        simp [parseOneF, RType.asBytes]
      rw [h1]
      exact integerParse_enc i rest hwf.1 hwf.2
    | bulkString s =>
      simp only [wfRT, Bool.and_eq_true, Bool.not_eq_true', decide_eq_true_eq] at hwf
      have h1 : parseOneF (parseOne f) (RType.asBytes (.bulkString s) ++ rest)
          = bulkStringParse (RType.asBytes (.bulkString s) ++ rest) := by
        simp [parseOneF, RType.asBytes]
      rw [h1]
      exact bulkStringParse_enc s rest hwf.1.1 hwf.1.2 hwf.2
    | array xs =>
      simp only [wfRT, Bool.and_eq_true, decide_eq_true_eq] at hwf
      simp only [depthRT] at hd
      have h1 : parseOneF (parseOne f) (RType.asBytes (.array xs) ++ rest)
          = arrayParse (parseOne f) (RType.asBytes (.array xs) ++ rest) := by
        simp [parseOneF, RType.asBytes]
      rw [h1]
      exact arrayParse_enc (parseOne f) xs rest hwf.1 fun x hx r =>
        ih x r (wfList_mem xs hwf.2 x hx)
          (lt_of_le_of_lt (depthList_mem xs x hx) (by omega))
    | null =>
      have h1 : parseOneF (parseOne f) (RType.asBytes .null ++ rest)
          = nullParse (RType.asBytes .null ++ rest) := by
        simp [parseOneF, RType.asBytes]
      rw [h1]
      exact nullParse_enc rest
    | boolean b =>
      have h1 : parseOneF (parseOne f) (RType.asBytes (.boolean b) ++ rest)
          = booleanParse (RType.asBytes (.boolean b) ++ rest) := by
        cases b <;> simp [parseOneF, RType.asBytes, strBytes]
      rw [h1]
      exact booleanParse_enc b rest
    | double s =>
      simp [wfRT] at hwf
    | bigNumber i =>
      simp only [wfRT, decide_eq_true_eq] at hwf
      have h1 : parseOneF (parseOne f) (RType.asBytes (.bigNumber i) ++ rest)
          = bigNumberParse (RType.asBytes (.bigNumber i) ++ rest) := by
        simp [parseOneF, RType.asBytes]
      rw [h1]
      exact bigNumberParse_enc i rest hwf.1 hwf.2
    | bulkError s =>
      simp [wfRT] at hwf
    | verbatimString enc data =>
      simp only [wfRT, Bool.and_eq_true, Bool.not_eq_true', decide_eq_true_eq] at hwf
      obtain ⟨⟨⟨⟨⟨h3, hnot⟩, hue⟩, hud⟩, h4⟩, hlt⟩ := hwf
      have hcolon : ∀ x ∈ enc, x ≠ 58 := by
        intro x hx he
        subst he
        simp only [List.contains, List.elem_eq_mem, decide_eq_false_iff_not] at hnot
        exact hnot hx
      have h1 : parseOneF (parseOne f) (RType.asBytes (.verbatimString enc data) ++ rest)
          = verbatimStringParse (RType.asBytes (.verbatimString enc data) ++ rest) := by
        simp [parseOneF, RType.asBytes]
      rw [h1]
      exact verbatimStringParse_enc enc data rest h3 hcolon hue hud h4 hlt
    | map ps =>
      simp only [wfRT, Bool.and_eq_true, decide_eq_true_eq] at hwf
      simp only [depthRT] at hd
      have h1 : parseOneF (parseOne f) (RType.asBytes (.map ps) ++ rest)
          = mapParse (parseOne f) (RType.asBytes (.map ps) ++ rest) := by
        simp [parseOneF, RType.asBytes]
      rw [h1]
      exact mapParse_enc (parseOne f) ps rest hwf.1.1 hwf.1.2 fun p hp =>
        ⟨fun r => ih p.1 r (wfPairs_mem ps hwf.2 p hp).1
            (lt_of_le_of_lt (depthPairs_mem ps p hp).1 (by omega)),
          fun r => ih p.2 r (wfPairs_mem ps hwf.2 p hp).2
            (lt_of_le_of_lt (depthPairs_mem ps p hp).2 (by omega))⟩
    | rset xs =>
      simp only [wfRT, List.isEmpty_iff] at hwf
      subst hwf
      have h1 : parseOneF (parseOne f) (RType.asBytes (.rset []) ++ rest)
          = setParse (parseOne f) (RType.asBytes (.rset []) ++ rest) := by
        simp [parseOneF, RType.asBytes, RType.asBytesList, natToBytes, natToBytesAux]
      rw [h1]
      exact setParse_enc (parseOne f) rest
    | rdbFile s =>
      simp [wfRT] at hwf

mutual

theorem depthRT_le_asBytes : ∀ v : RType, depthRT v ≤ v.asBytes.length
  | .simpleString s => by simp [depthRT]
  | .simpleError s => by simp [depthRT]
  | .integer i => by simp [depthRT]
  | .bulkString s => by simp [depthRT]
  | .array xs => by
    have h1 := depthList_le_asBytesList xs
    have h2 : 1 ≤ (natToBytes xs.length).length :=
      List.length_pos.mpr (natToBytes_ne_nil _)
    simp only [depthRT, RType.asBytes, List.length_append, List.length_cons, CRLF]
    simp
    omega
  | .null => by simp [depthRT]
  | .boolean b => by simp [depthRT]
  | .double r => by simp [depthRT]
  | .bigNumber i => by simp [depthRT]
  | .bulkError s => by simp [depthRT]
  | .verbatimString enc data => by simp [depthRT]
  | .map ps => by
    have h1 := depthPairs_le_asBytesPairs ps
    have h2 : 1 ≤ (natToBytes ps.length).length :=
      List.length_pos.mpr (natToBytes_ne_nil _)
    simp only [depthRT, RType.asBytes, List.length_append, List.length_cons, CRLF]
    simp
    omega
  | .rset xs => by
    have h1 := depthList_le_asBytesList xs
    have h2 : 1 ≤ (natToBytes xs.length).length :=
      List.length_pos.mpr (natToBytes_ne_nil _)
    simp only [depthRT, RType.asBytes, List.length_append, List.length_cons, CRLF]
    simp
    omega
  | .rdbFile d => by simp [depthRT]

theorem depthList_le_asBytesList : ∀ xs : List RType,
    depthList xs ≤ (RType.asBytesList xs).length
  | [] => by simp [depthList, RType.asBytesList]
  | x :: xs => by
    have h1 := depthRT_le_asBytes x
    have h2 := depthList_le_asBytesList xs
    simp only [depthList, RType.asBytesList, List.length_append]
    omega

theorem depthPairs_le_asBytesPairs : ∀ ps : List (RType × RType),
    depthPairs ps ≤ (RType.asBytesPairs ps).length
  | [] => by simp [depthPairs, RType.asBytesPairs]
  | (k, v) :: ps => by
    have h1 := depthRT_le_asBytes k
    have h2 := depthRT_le_asBytes v
    have h3 := depthPairs_le_asBytesPairs ps
    simp only [depthPairs, RType.asBytesPairs, List.length_append]
    omega

end

theorem asBytes_ne_nil (v : RType) : v.asBytes ≠ [] := by
  cases v <;> simp [RType.asBytes]

theorem parseLoop_nil (n : Nat) : parseLoop n [] = .ok [] := by
  cases n <;> rfl

theorem parse_enc (v : RType) (hwf : wfRT v = true) :
    parse (RType.asBytes v) = .ok [v] := by
  have hne := asBytes_ne_nil v
  have hd := depthRT_le_asBytes v
  rw [parse]
  cases hl : RType.asBytes v with
  | nil => exact absurd hl hne
  | cons b bs =>
    rw [show (b :: bs).length = bs.length + 1 from rfl]
    rw [parseLoop]
    have hone : parseOne ((b :: bs).length + 1) (RType.asBytes v ++ [])
        = .ok (v, []) := by
      apply parseOne_enc _ v [] hwf
      rw [← hl]
      omega
    rw [List.append_nil] at hone
    rw [← hl] at *
    rw [hone]
    simp only [PRes.bind]
    rw [parseLoop_nil]
    rfl
    simp

theorem natToBytes_not_redis (n : Nat) :
    listStartsWith (strBytes "REDIS0011") (natToBytes n) = false := by
  obtain ⟨hd, tl, he, h1, h2⟩ := natToBytes_head_digit n
  rw [listStartsWith, he]
  rw [show strBytes "REDIS0011" = [82, 69, 68, 73, 83, 48, 48, 49, 49] from rfl]
  simp only [List.take_succ_cons, decide_eq_false_iff_not]
  intro hcontra
  injection hcontra with hh _
  omega

theorem waitLoop_later (mo des : Nat) : ∀ (bs : List (List Nat)) (synced : Nat) (first : Bool),
    (waitLoop mo des bs synced first).2.1
      = if (waitLoop mo des bs synced first).2.2 then (if first then 37 else 0) else 0 := by
  intro bs
  induction bs with
  | nil => intro synced first; rfl
  | cons b t ih =>
    intro synced first
    rw [waitLoop]
    by_cases hs : synced ≥ des
    · rw [if_pos hs]
      rfl
    · rw [if_neg hs]
      have h0 := ih (drainBatch mo des synced b) false
      have h0' : (waitLoop mo des t (drainBatch mo des synced b) false).2.1 = 0 := by
        rw [h0]; simp
      cases first <;> simp [h0']

/-- Appended-case characterization of `xaddStep`: a successful XADD pushes
the raw ID, resolves against the previous last entry, and its resolved ID
was not rejected by the order guard. -/
theorem xaddStep_appended (stream : XStream) (id : List Nat) (f : Fields)
    (r : Nat × Nat) (s : XStream) (h : xaddStep stream id f = (.appended r, s)) :
    s = stream ++ [(id, f)] ∧ r = xaddParseId id stream.getLast? ∧
    ∀ lastE, stream.getLast? = some lastE →
      ¬(r.1 < (simple_parse_id lastE.1).1 ∨
        (r.1 = (simple_parse_id lastE.1).1 ∧ r.2 ≤ (simple_parse_id lastE.1).2)) := by
  simp only [xaddStep] at h
  by_cases h00 : (xaddParseId id stream.getLast?).1 = 0 ∧ (xaddParseId id stream.getLast?).2 = 0
  · rw [if_pos h00] at h
    injection h with h1 h2
    exact XaddResult.noConfusion h1
  · rw [if_neg h00] at h
    cases hlast : stream.getLast? with
    | none =>
      simp only [hlast] at h
      injection h with h1 h2
      injection h1 with h1
      exact ⟨h2.symm, h1.symm, fun lastE he => Option.noConfusion he⟩
    | some lastE =>
      simp only [hlast] at h
      by_cases hord : (xaddParseId id (some lastE)).1 < (simple_parse_id lastE.1).1 ∨
          ((xaddParseId id (some lastE)).1 = (simple_parse_id lastE.1).1 ∧
            (xaddParseId id (some lastE)).2 ≤ (simple_parse_id lastE.1).2)
      · rw [if_pos hord] at h
        injection h with h1 h2
        exact XaddResult.noConfusion h1
      · rw [if_neg hord] at h
        injection h with h1 h2
        injection h1 with h1
        refine ⟨h2.symm, h1.symm, fun l he => ?_⟩
        injection he with he
        subst he
        rw [← h1]
        exact hord

/-- Claim C2: for every accepted RESP value — charaterised by `wfRT`,
which admits exactly the values whose `as_bytes` output the decoder maps
back to the value: CRLF-free simple strings and errors, i64-range
Integers and BigNumbers, non-`REDIS0011` BulkStrings, Null, Booleans,
colon-free VerbatimStrings with at least 4 data bytes, Arrays and Maps
of such values (maps with distinct keys) and empty Sets — decoding the
encoding yields exactly that value.  Corrected from the claim: Double,
BulkError (the encoder emits only the header and drops the payload, so
its encoding does not even decode) and RDBFile values do not round-trip,
and non-empty Sets return a wrong remainder. -/
theorem claim_C2 (v : RType) (hwf : wfRT v = true) :
    parse (RType.asBytes v) = .ok [v] := parse_enc v hwf

theorem claim_C2_witness :
    wfRT (RType.array [.boolean true, .verbatimString (strBytes "txt") (strBytes "Hello")])
        = true ∧
      parse (RType.asBytes
          (RType.array [.boolean true, .verbatimString (strBytes "txt") (strBytes "Hello")]))
        = .ok [RType.array [.boolean true,
            .verbatimString (strBytes "txt") (strBytes "Hello")]] :=
  ⟨by decide, claim_C2 _ (by decide)⟩

/-- Claim C2 counterexample: the claim includes BulkError among the
round-tripping values, but `as_bytes` for BulkError emits only
`!<len>\x0d\x0a` and drops the payload, so decoding its encoding crashes
(the declared length reaches past the end of the input) instead of
returning the value. -/
theorem claim_C2_counterexample :
    parse ((RType.bulkError (strBytes "Error message")).asBytes) = .crash ∧
      parse ((RType.bulkError (strBytes "Error message")).asBytes)
        ≠ .ok [.bulkError (strBytes "Error message")] := by
  refine ⟨rfl, ?_⟩
  rw [show parse ((RType.bulkError (strBytes "Error message")).asBytes) = .crash from rfl]
  exact fun h => PRes.noConfusion h

/-- Claim C3, corrected: `wait::command` computes `later_bytes` (37 when
the single GETACK broadcast happened, 0 otherwise) but the final
`master_repl_offset += later_bytes` of the source is commented out, so
the master offset after every WAIT invocation equals the snapshot taken
at entry — the GETACK bytes are never added. -/
theorem claim_C3 (mo replicas desiredArg : Nat) (batches : List (List Nat)) :
    (waitCommand mo replicas desiredArg batches).masterOffsetAfter = mo ∧
      (waitCommand mo replicas desiredArg batches).laterBytes
        = (if (waitCommand mo replicas desiredArg batches).sentGetAck then 37 else 0) := by
  rw [waitCommand]
  by_cases h0 : mo = 0
  · rw [if_pos h0]
    exact ⟨rfl, rfl⟩
  · rw [if_neg h0]
    refine ⟨rfl, ?_⟩
    exact waitLoop_later mo _ batches 0 true

/-- Claim C3 counterexample: a WAIT that broadcast a GETACK (sentGetAck
is true, later_bytes is 37) leaves `master_repl_offset` at the snapshot
100 instead of adding the 37 deferred bytes. -/
theorem claim_C3_counterexample :
    waitCommand 100 1 1 [[100]]
        = { reply := 1, laterBytes := 37, masterOffsetAfter := 100, sentGetAck := true } ∧
      (100 : Nat) ≠ 100 + 37 := by
  exact ⟨by decide, by omega⟩

/-- Claim C9, corrected: `xadd::command` resolves the ID through the
file-local `parse_id`, which splits at `-` and maps an ID without a
dash — including the bare `*` the claim is about — to `(0, 0)` without
consulting the clock, so XADD with ID `*` is always rejected with the
greater-than-0-0 error and the stream is unchanged (the spec-conformant
`*` handling lives in the uncalled `StreamID::parse`). -/
theorem claim_C9 (stream : XStream) (fields : Fields) :
    xaddStep stream (strBytes "*") fields
      = (.rejected "ERR The ID specified in XADD must be greater than 0-0", stream) := rfl

/-- Claim C9 counterexample: a concrete XADD with ID `*` on an empty
stream is rejected as 0-0 and appends nothing, where the claim promises
an appended ID with the current-time milliseconds. -/
theorem claim_C9_counterexample :
    xaddStep [] (strBytes "*") [(strBytes "field", strBytes "value")]
      = (.rejected "ERR The ID specified in XADD must be greater than 0-0", []) := by
  decide

/-- Claim C10: the claim matches the spec, but the code diverges
(code_bug).  `set::command` reads the option name through
`args[3].to_string()`, the RESP Display rendering, so a BulkString
`PX` renders as `$2\x0d\x0aPX\x0d\x0a` and never equals `"PX"`; every
SET with a 4th argument — whether `PX <ms>` or any other trailing
option — therefore takes the non-matching branch and stores the
hard-coded TTL `Some(7)`.  A SET `k v PX 100` hence expires after 7 ms:
a GET 10 ms later already returns Null although 10 < 100, and a SET
with a non-PX trailing argument gets an expiration although the claim
(and spec) promise none. -/
theorem claim_C10 (st : ConnEffects) (k v : List Nat) :
    setCommand false st [.bulkString (strBytes "SET"), .bulkString k, .bulkString v,
        .bulkString (strBytes "PX"), .bulkString (strBytes "100")]
      = { st with
          db := dbSet st.db (.bulkString k) (.bulkString v) (some 7),
          repl_offset := st.repl_offset
            + (RType.array [.bulkString (strBytes "SET"), .bulkString k, .bulkString v,
                .bulkString (strBytes "PX"), .bulkString (strBytes "100")]).encLen } ∧
    setCommand false st [.bulkString (strBytes "SET"), .bulkString k, .bulkString v,
        .bulkString (strBytes "KEEPTTL")]
      = { st with
          db := dbSet st.db (.bulkString k) (.bulkString v) (some 7),
          repl_offset := st.repl_offset
            + (RType.array [.bulkString (strBytes "SET"), .bulkString k, .bulkString v,
                .bulkString (strBytes "KEEPTTL")]).encLen } ∧
    dbGetItem { value := .bulkString v, expires_at := some 7 } 10 = none ∧
    asciiUpper (RType.display (.bulkString (strBytes "PX"))) ≠ strBytes "PX" := by
  exact ⟨rfl, rfl, rfl, by decide⟩

/-- Claim C7, corrected: two successive successful XADDs on the same
stream produce strictly lexicographically increasing resolved IDs
*provided* the first XADD's raw ID string reparses (via
`simple_parse_id`) to its own resolved ID — which holds for fully
explicit `ms-seq` IDs but fails for auto-sequence forms such as `ms-*`,
since the stream stores the raw ID string and `simple_parse_id` maps `*`
to 0 via `unwrap_or(0)`; with such an earlier entry a duplicate ID can
be appended (see the counterexample). -/
theorem claim_C7 (stream : XStream) (id1 id2 : List Nat) (f1 f2 : Fields)
    (r1 r2 : Nat × Nat) (s1 s2 : XStream)
    (h1 : xaddStep stream id1 f1 = (.appended r1, s1))
    (h2 : xaddStep s1 id2 f2 = (.appended r2, s2))
    (hraw : simple_parse_id id1 = r1) :
    idLexLt r1 r2 := by
  obtain ⟨hs1, _, _⟩ := xaddStep_appended stream id1 f1 r1 s1 h1
  subst hs1
  obtain ⟨_, _, hguard⟩ := xaddStep_appended _ id2 f2 r2 s2 h2
  have hlast : (stream ++ [(id1, f1)]).getLast? = some (id1, f1) := by simp
  have hg := hguard (id1, f1) hlast
  rw [hraw] at hg
  rw [idLexLt]
  push_neg at hg
  omega

theorem claim_C7_witness : idLexLt (1, 1) (2, 0) :=
  claim_C7 [] (strBytes "1-1") (strBytes "2-0") [] [] (1, 1) (2, 0)
    [(strBytes "1-1", [])] [(strBytes "1-1", []), (strBytes "2-0", [])]
    (by decide) (by decide) (by decide)

/-- Claim C7 counterexample: after an XADD with the auto-sequence ID
`5-*` (resolved to `5-1` but stored as the raw string `5-*`, which
reparses to `(5, 0)`), a second XADD with explicit ID `5-1` passes the
order guard and is appended with the very same resolved ID `5-1` — the
sequence of appended IDs is not strictly increasing. -/
theorem claim_C7_counterexample :
    xaddStep [] (strBytes "5-*") [(strBytes "a", strBytes "b")]
        = (.appended (5, 1), [(strBytes "5-*", [(strBytes "a", strBytes "b")])]) ∧
      xaddStep [(strBytes "5-*", [(strBytes "a", strBytes "b")])] (strBytes "5-1")
          [(strBytes "c", strBytes "d")]
        = (.appended (5, 1),
            [(strBytes "5-*", [(strBytes "a", strBytes "b")]),
              (strBytes "5-1", [(strBytes "c", strBytes "d")])]) ∧
      ¬ idLexLt (5, 1) (5, 1) := by
  refine ⟨by decide, by decide, ?_⟩
  rw [idLexLt]
  omega

/-- Claim C8, corrected: XRANGE keeps exactly the entries whose ID
satisfies the bounds *componentwise* — both `milliseconds` and
`sequence` must lie within the respective bounds independently — not
the claimed lexicographic interval: an entry `2-0` is *excluded* from
`XRANGE s 1-5 3-0` because its sequence 0 is below the start bound's
sequence 5, although `1-5 ≤ 2-0 ≤ 3-0` lexicographically; the kept
entries are rendered `[id, Array(flattened pairs)]` in stream order. -/
theorem claim_C8 (stream : List (StreamID × Fields)) (startS endS : List Nat) :
    xrangeEntries stream startS endS
      = (stream.filter fun entry =>
          decide ((entry.1.milliseconds ≥ (StreamID.from_id startS).milliseconds ∧
              entry.1.sequence ≥ (StreamID.from_id startS).sequence) ∧
            (entry.1.milliseconds ≤ (StreamID.from_id endS).milliseconds ∧
              entry.1.sequence ≤ (StreamID.from_id endS).sequence))).map
        fun entry => .array [.bulkString entry.1.render, .array (flattenFields entry.2)] := by
  induction stream with
  | nil => rfl
  | cons e t ih =>
    simp only [xrangeEntries, List.filterMap_cons, List.filter_cons] at ih ⊢
    by_cases hc : (e.1.milliseconds ≥ (StreamID.from_id startS).milliseconds ∧
        e.1.sequence ≥ (StreamID.from_id startS).sequence) ∧
      (e.1.milliseconds ≤ (StreamID.from_id endS).milliseconds ∧
        e.1.sequence ≤ (StreamID.from_id endS).sequence)
    · rw [if_pos hc, if_pos (by exact decide_eq_true hc)]
      rw [List.map_cons]
      rw [ih]
    · rw [if_neg hc, if_neg (by simp [hc])]
      exact ih

/-- Claim C8 counterexample: the entry with ID `2-0` lies inside the
lexicographic interval `[1-5, 3-0]` that the claim promises, yet XRANGE
returns the empty list because the comparison is componentwise
(sequence 0 < start sequence 5). -/
theorem claim_C8_counterexample :
    xrangeEntries [(⟨2, 0⟩, [(strBytes "a", strBytes "b")])]
        (strBytes "1-5") (strBytes "3-0") = [] ∧
      idLexLe (1, 5) (2, 0) ∧ idLexLe (2, 0) (3, 0) ∧
      StreamID.from_id (strBytes "1-5") = ⟨1, 5⟩ ∧
      StreamID.from_id (strBytes "3-0") = ⟨3, 0⟩ := by
  refine ⟨rfl, Or.inl (by omega), Or.inl (by omega), by decide, by decide⟩

/-- Claim C1, corrected: on the replication connection the replica's
`repl_offset` does *not* grow by exactly the encoded command length.
The accounting block of `Connection::handle` adds the length of the
whole read buffer once per SET / PING / REPLCONF GETACK command *on top
of* the handler's own accounting: a lone PING buffer adds its length
twice (the PING handler already adds the command's encoded length), a
GETACK buffer adds the hard-coded 37 of the handler plus the buffer
length (74 total), while a 3-argument SET adds exactly the buffer
length only because its handler path performs no accounting of its own.
Inbound REPLCONF ACK leaves `repl_offset` unchanged, as claimed. -/
theorem claim_C1 (st : ConnEffects) (k v : List Nat) (n L : Nat)
    (hk1 : isValidUtf8 k = true)
    (hk2 : listStartsWith (strBytes "REDIS0011") k = false)
    (hk3 : k.length < 2 ^ 63)
    (hv1 : isValidUtf8 v = true)
    (hv2 : listStartsWith (strBytes "REDIS0011") v = false)
    (hv3 : v.length < 2 ^ 63)
    (hn : n < 2 ^ 64) :
    connectionStep .replication false st pingBuf
      = .ok { st with
          repl_offset := st.repl_offset + (RType.array pingCmd).encLen + pingBuf.length } ∧
    connectionStep .replication false st getackBuf
      = .ok { st with
          writes := st.writes ++ [.raw (ackBufOf st.repl_offset)],
          repl_offset := st.repl_offset + 37 + getackBuf.length } ∧
    connectionStep .replication false st (setBufOf k v)
      = .ok { st with
          db := dbSet st.db (.bulkString k) (.bulkString v) none,
          repl_offset := st.repl_offset + (setBufOf k v).length } ∧
    replconfCommand false st [.bulkString (strBytes "ACK"), .bulkString (natToBytes n)]
      = ({ st with acksForwarded := st.acksForwarded ++ [n] }).write .okReply ∧
    connAccounting false st (replconfAckArr n) L = .ok st := by
  refine ⟨rfl, rfl, ?_, ?_, rfl⟩
  · have hwf : wfRT (.array (setCmdOf k v)) = true := by
      simp only [wfRT, wfList, setCmdOf, Bool.and_eq_true, decide_eq_true_eq,
        Bool.not_eq_true', hk1, hk2, hk3, hv1, hv2, hv3, and_true, true_and]
      exact ⟨by norm_num, ⟨by decide, by decide⟩, by decide⟩
    have hp : parse (setBufOf k v) = .ok [.array (setCmdOf k v)] :=
      parse_enc (.array (setCmdOf k v)) hwf
    rw [connectionStep, hp]
    rfl
  · have hr : replconfCommand false st [.bulkString (strBytes "ACK"),
        .bulkString (natToBytes n)]
        = match rustParseU64 (natToBytes n) with
          | some o => ({ st with acksForwarded := st.acksForwarded ++ [o] }).write .okReply
          | none => st.write (.errReply "ERR failed to parse offset as u64") := rfl
    rw [hr, rustParseU64_natToBytes n hn]

theorem claim_C1_witness :
    connectionStep .replication false
        { repl_offset := 0, master_repl_offset := 0, db := [], writes := [],
          acksForwarded := [] } pingBuf
      = .ok { repl_offset := 0 + (RType.array pingCmd).encLen + pingBuf.length,
              master_repl_offset := 0, db := [], writes := [], acksForwarded := [] } :=
  (claim_C1 { repl_offset := 0, master_repl_offset := 0, db := [], writes := [],
              acksForwarded := [] } (strBytes "key") (strBytes "val") 5 0
    (by decide) (by decide) (by decide) (by decide) (by decide) (by decide) (by decide)).1

/-- Claim C1 counterexample: a replica that processes a lone 14-byte
PING buffer advances `repl_offset` by 28, not by the 14 bytes the claim
requires (the handler adds the encoded command length and the
accounting block adds the whole buffer length again). -/
theorem claim_C1_counterexample :
    connectionStep .replication false
        { repl_offset := 0, master_repl_offset := 0, db := [], writes := [],
          acksForwarded := [] } pingBuf
      = .ok { repl_offset := 28, master_repl_offset := 0, db := [], writes := [],
              acksForwarded := [] } ∧
    pingBuf.length = 14 ∧ (28 : Nat) ≠ 14 := ⟨rfl, rfl, by omega⟩

/-- Claim C4, corrected: on `REPLCONF GETACK *` the replica replies
`REPLCONF ACK <n>` where `n` is the `repl_offset` read *before* any
accounting for the GETACK itself — the acknowledged offset does *not*
include the GETACK's own bytes; only afterwards does the handler add
its hard-coded 37 and the accounting block the 37-byte buffer length
again, leaving the offset 74 beyond the acknowledged value. -/
theorem claim_C4 (st : ConnEffects) :
    connectionStep .replication false st getackBuf
      = .ok { st with
          writes := st.writes ++ [.raw (ackBufOf st.repl_offset)],
          repl_offset := st.repl_offset + 37 + 37 } := rfl

/-- Claim C4 counterexample: a replica at offset 0 receiving
`REPLCONF GETACK *` acknowledges offset 0 — the reply bytes are those
of `REPLCONF ACK 0`, not of `REPLCONF ACK 37`, so the acknowledged
offset excludes the GETACK's own 37 encoded bytes, contrary to the
claim. -/
theorem claim_C4_counterexample :
    connectionStep .replication false
        { repl_offset := 0, master_repl_offset := 0, db := [], writes := [],
          acksForwarded := [] } getackBuf
      = .ok { repl_offset := 74, master_repl_offset := 0, db := [],
              writes := [.raw (ackBufOf 0)], acksForwarded := [] } ∧
    ackBufOf 0 ≠ ackBufOf 37 := ⟨rfl, by decide⟩

/-- Claim C5, corrected: a bulk-string frame whose payload starts with
the 9 bytes `REDIS0011` is decoded as RDBFile rather than BulkString,
as claimed — but the decoder does *not* succeed without bytes after the
body: it unconditionally slices `input[data_end + 2..]`, so it consumes
two extra bytes after the payload when they exist, and an input that
ends exactly at the end of the RDB body panics instead of decoding with
an empty remainder. -/
theorem claim_C5 (payload rest : List Nat)
    (hred : listStartsWith (strBytes "REDIS0011") payload = true)
    (hlen : payload.length < 2 ^ 63) (hrest : 2 ≤ rest.length)
    (hne : 1 ≤ payload.length) (hutf : isValidUtf8 payload = true) :
    bulkStringParse (36 :: (natToBytes payload.length ++ 13 :: 10 :: (payload ++ rest)))
        = .ok (.rdbFile payload, rest.drop 2) ∧
      bulkStringParse (36 :: (natToBytes payload.length ++ 13 :: 10 :: payload)) = .crash :=
  ⟨bulkStringParse_rdb payload rest hred hlen hrest,
    bulkStringParse_atEnd_crash payload hne hutf hlen⟩

theorem claim_C5_witness :
    bulkStringParse (36 :: (natToBytes (strBytes "REDIS0011").length
          ++ 13 :: 10 :: (strBytes "REDIS0011" ++ [13, 10])))
        = .ok (.rdbFile (strBytes "REDIS0011"), ([13, 10] : List Nat).drop 2) ∧
      bulkStringParse (36 :: (natToBytes (strBytes "REDIS0011").length
          ++ 13 :: 10 :: strBytes "REDIS0011")) = .crash :=
  claim_C5 (strBytes "REDIS0011") [13, 10] (by decide) (by decide) (by decide)
    (by decide) (by decide)

/-- Claim C5 counterexample: the 13-byte frame `$9` CRLF `REDIS0011`,
which ends exactly at the end of the RDB body, does not decode
successfully with an empty remainder as the claim requires — the
decoder panics slicing two bytes past the end. -/
theorem claim_C5_counterexample :
    parse (strBytes "$9\r\nREDIS0011") = .crash := rfl

/-- Claim C6, corrected: the top-level decoder is *not* total: besides
the documented error kinds it panics on inputs whose bulk-string frame
declares data running to the very end of the input with no trailing
CRLF — slicing `input[data_end + 2..]` indexes out of bounds.  The
family below exhibits the panic for every non-empty UTF-8 payload. -/
theorem claim_C6 (payload : List Nat) (hne : 1 ≤ payload.length)
    (hutf : isValidUtf8 payload = true) (hlen : payload.length < 2 ^ 63) :
    parse (36 :: (natToBytes payload.length ++ 13 :: 10 :: payload)) = .crash := by
  rw [parse]
  have hlen1 : (36 :: (natToBytes payload.length ++ 13 :: 10 :: payload)).length
      = (natToBytes payload.length ++ 13 :: 10 :: payload).length + 1 := by simp
  rw [hlen1, parseLoop]
  · rw [parseOne]
    have hd : parseOneF
        (parseOne ((36 :: (natToBytes payload.length ++ 13 :: 10 :: payload)).length))
        (36 :: (natToBytes payload.length ++ 13 :: 10 :: payload))
        = bulkStringParse (36 :: (natToBytes payload.length ++ 13 :: 10 :: payload)) := by
      simp [parseOneF]
    rw [hd, bulkStringParse_atEnd_crash payload hne hutf hlen]
    rfl
  · simp

theorem claim_C6_witness :
    parse (36 :: (natToBytes (strBytes "abcd").length ++ 13 :: 10 :: strBytes "abcd"))
      = .crash :=
  claim_C6 (strBytes "abcd") (by decide) (by decide) (by decide)

/-- Claim C6 counterexample: the 7-byte input `$3` CRLF `bar` — a bulk
string whose declared data extends to the end of the input — makes the
decoder panic (index out of bounds) rather than return a value or one
of the documented error kinds. -/
theorem claim_C6_counterexample :
    parse (strBytes "$3\r\nbar") = .crash := rfl

end S2P
